import Mathlib

/-!
Verification development for the gpagent agent runtime (C++ sources under
`src/`).  The C++ data model and the operations referenced by the testable
properties are shallowly embedded below:

* `nlohmann::json` values become the inductive `gpagent.Json` (floating
  numbers are carried as rationals; their textual `dump` form is not relied
  on by any theorem);
* machine integers become `Nat`/`Int` (all quantities involved stay far from
  the 2^31/2^63 boundaries, none of the verified code exercises overflow);
* `float` scores of the TRM recommender become `ℚ` (the literals 0.5 and
  0.15 and the comparisons used are exact at the concrete inputs evaluated,
  so no rounding discrepancy is introduced);
* `std::chrono` time points are counts of nanoseconds since the epoch
  (libstdc++ `system_clock`), durations of type `Duration` are milliseconds,
  both as `Int`; `duration_cast<seconds>` is truncating division;
* fallible operations return the `Result` variant mirroring
  `gpagent::core::Result<T, Error>`; wall-clock readings and file-system or
  network effects are passed in explicitly as parameters or oracle
  functions.
-/

namespace gpagent

/-- Model of `nlohmann::json` values: null, booleans, integer numbers,
floating-point numbers (as rationals), strings, arrays and objects
(association lists of key/value pairs). -/
inductive Json where
  | null : Json
  | bool (b : Bool) : Json
  | int (n : Int) : Json
  | float (q : ℚ) : Json
  | str (s : String) : Json
  | arr (elems : List Json) : Json
  | obj (fields : List (String × Json)) : Json

namespace Json

/-- Key lookup in an object (`j[key]` / `j.find(key)`); `none` for
non-objects or missing keys. -/
def lookup : Json → String → Option Json
  | .obj fields, key => fields.lookup key
  | _, _ => none

/-- `j.contains(key)` — false on non-objects. -/
def containsKey (j : Json) (key : String) : Bool :=
  (j.lookup key).isSome

/-- `j.value(key, default)` for string-valued keys.  (The C++ call throws on
a type mismatch; every use in the embedded code reads back values it wrote
itself, so the mismatch branch is never exercised and is mapped to the
default.) -/
def valueStr (j : Json) (key : String) (d : String) : String :=
  match j.lookup key with
  | some (.str s) => s
  | _ => d

/-- `j.value(key, default)` for integer-valued keys. -/
def valueInt (j : Json) (key : String) (d : Int) : Int :=
  match j.lookup key with
  | some (.int n) => n
  | _ => d

/-- `j.value(key, default)` for boolean-valued keys. -/
def valueBool (j : Json) (key : String) (d : Bool) : Bool :=
  match j.lookup key with
  | some (.bool b) => b
  | _ => d

/-- `j.value(key, Json::object())` — the raw JSON value at a key, or the
given default JSON value. -/
def valueJson (j : Json) (key : String) (d : Json) : Json :=
  match j.lookup key with
  | some v => v
  | none => d

/-- `j.get<std::vector<std::string>>()` on an array of strings (non-string
elements never occur on the round-trip paths that use this). -/
def getStrList : Json → List String
  | .arr elems => elems.map (fun e => match e with | .str s => s | _ => "")
  | _ => []

/-- `j.empty()`: true for null and for empty arrays/objects, false for every
other kind of value. -/
def isEmptyJson : Json → Bool
  | .null => true
  | .arr elems => elems.isEmpty
  | .obj fields => fields.isEmpty
  | _ => false

end Json

/-- `gpagent::core::ErrorCode` (errors.hpp). -/
inductive ErrorCode where
  | Ok
  | Unknown | InvalidArgument | NotFound | AlreadyExists | PermissionDenied
  | Timeout | Cancelled | NotImplemented | InternalError | InvalidState
  | MemoryLoadFailed | MemorySaveFailed | MemoryCorrupted | CheckpointNotFound
  | EpisodeNotFound | SessionExpired | SessionNotFound
  | LLMConnectionFailed | LLMRateLimited | LLMContextOverflow
  | LLMInvalidResponse | LLMApiKeyMissing | LLMProviderUnavailable
  | LLMTokenLimitExceeded | LLMStreamError
  | ToolNotFound | ToolExecutionFailed | ToolValidationFailed | ToolTimeout
  | ToolPermissionDenied | MCPConnectionFailed | MCPProtocolError | ToolDisabled
  | TRMModelNotLoaded | TRMInferenceFailed | TRMTrainingFailed
  | TRMInsufficientData | TRMModelCorrupted
  | ContextBuildFailed | ContextCompactionFailed | ContextTooLarge
  | ConfigNotFound | ConfigParseFailed | ConfigValidationFailed | ConfigKeyMissing
  | FileNotFound | FileReadFailed | FileWriteFailed | DirectoryNotFound
  | PathNotAllowed | FileTooLarge
  | NetworkError | ConnectionRefused | DNSResolutionFailed | SSLError
deriving DecidableEq, Repr

/-- `gpagent::core::is_retriable` (errors.hpp). -/
def is_retriable : ErrorCode → Bool
  | .LLMRateLimited => true
  | .LLMConnectionFailed => true
  | .LLMStreamError => true
  | .ToolTimeout => true
  | .MCPConnectionFailed => true
  | .NetworkError => true
  | .ConnectionRefused => true
  | .Timeout => true
  | _ => false

/-- `gpagent::core::Error` (errors.hpp): code, message, optional context and
optional source location. -/
structure Error where
  code : ErrorCode
  message : String
  context : Option String := none
  source : Option String := none
deriving DecidableEq, Repr

/-- `Error::full_message()`. -/
def Error.full_message (e : Error) : String :=
  (e.message ++ (match e.context with
    | some ctx => " [" ++ ctx ++ "]"
    | none => "")) ++ (match e.source with
    | some src => " at " ++ src
    | none => "")

/-- `Error::is_retriable()`. -/
def Error.is_retriable (e : Error) : Bool :=
  gpagent.is_retriable e.code

/-- `gpagent::core::Result<T, E>` (result.hpp). -/
inductive Result (T : Type) (E : Type) where
  | ok (value : T) : Result T E
  | err (error : E) : Result T E
deriving DecidableEq, Repr

namespace Result

def is_ok {T E : Type} : Result T E → Bool
  | .ok _ => true
  | .err _ => false

def is_err {T E : Type} : Result T E → Bool
  | .ok _ => false
  | .err _ => true

end Result

/-! ## Episodic memory data model (episodic_memory.hpp / episodic_memory.cpp)

`TimePoint` fields are nanoseconds since the epoch, `Duration` fields are
milliseconds, both as `Int`; a default-constructed value of either is `0`.
`duration_cast<std::chrono::seconds>` on a nanosecond count truncates toward
zero, i.e. `Int.tdiv · 1000000000`. -/

/-- `gpagent::memory::EpisodeAction`. -/
structure EpisodeAction where
  tool : String
  arguments : Json := .obj []
  success : Bool := true
  error : Option String := none
  result_summary : String := ""
  execution_time : Int := 0
  timestamp : Int := 0

/-- `EpisodeAction::to_json` (episodic_memory.cpp).  Note that neither
`result_summary` nor `timestamp` is written. -/
def EpisodeAction.to_json (a : EpisodeAction) : Json :=
  .obj ([("tool", .str a.tool),
         ("arguments", a.arguments),
         ("success", .bool a.success),
         ("execution_time_ms", .int a.execution_time)] ++
        (match a.error with
         | some e => [("error", .str e)]
         | none => []))

/-- `EpisodeAction::from_json` (episodic_memory.cpp). -/
def EpisodeAction.from_json (j : Json) : EpisodeAction :=
  { tool := j.valueStr "tool" ""
    arguments := j.valueJson "arguments" (.obj [])
    success := j.valueBool "success" true
    execution_time := j.valueInt "execution_time_ms" 0
    error := match j.lookup "error" with
      | some (.str e) => some e
      | _ => none }

/-- `gpagent::memory::EpisodeOutcome`.  `total_time` is milliseconds,
`duration` seconds. -/
structure EpisodeOutcome where
  success : Bool := false
  turns_taken : Int := 0
  tools_used : Int := 0
  total_time : Int := 0
  duration : Int := 0
  summary : String := ""
  failure_reason : Option String := none
deriving DecidableEq, Repr

/-- `EpisodeOutcome::to_json` (episodic_memory.cpp).  Neither `duration` nor
`summary` is written. -/
def EpisodeOutcome.to_json (o : EpisodeOutcome) : Json :=
  .obj ([("success", .bool o.success),
         ("turns_taken", .int o.turns_taken),
         ("tools_used", .int o.tools_used),
         ("total_time_ms", .int o.total_time)] ++
        (match o.failure_reason with
         | some r => [("failure_reason", .str r)]
         | none => []))

/-- `EpisodeOutcome::from_json` (episodic_memory.cpp). -/
def EpisodeOutcome.from_json (j : Json) : EpisodeOutcome :=
  { success := j.valueBool "success" false
    turns_taken := j.valueInt "turns_taken" 0
    tools_used := j.valueInt "tools_used" 0
    total_time := j.valueInt "total_time_ms" 0
    failure_reason := match j.lookup "failure_reason" with
      | some (.str r) => some r
      | _ => none }

/-- `gpagent::memory::Episode`. -/
structure Episode where
  id : String
  timestamp : Int := 0
  started_at : Int := 0
  completed_at : Int := 0
  task_description : String := ""
  task_category : String := ""
  project : String := ""
  files_involved : List String := []
  initial_context : Option String := none
  actions : List EpisodeAction := []
  outcome : EpisodeOutcome := {}
  learnings : List String := []
  keywords : List String := []

/-- `Episode::to_json` (episodic_memory.cpp).  `started_at` and
`completed_at` are not written; the episode timestamp is written truncated
to whole seconds. -/
def Episode.to_json (e : Episode) : Json :=
  .obj (([("id", .str e.id),
          ("timestamp", .int (e.timestamp.tdiv 1000000000)),
          ("task_description", .str e.task_description),
          ("task_category", .str e.task_category),
          ("project", .str e.project),
          ("files_involved", .arr (e.files_involved.map (.str ·))),
          ("outcome", e.outcome.to_json),
          ("learnings", .arr (e.learnings.map (.str ·))),
          ("keywords", .arr (e.keywords.map (.str ·)))] ++
         (match e.initial_context with
          | some c => [("initial_context", .str c)]
          | none => [])) ++
        [("actions", .arr (e.actions.map EpisodeAction.to_json))])

/-- `Episode::from_json` (episodic_memory.cpp). -/
def Episode.from_json (j : Json) : Episode :=
  { id := j.valueStr "id" ""
    task_description := j.valueStr "task_description" ""
    task_category := j.valueStr "task_category" ""
    project := j.valueStr "project" ""
    timestamp := match j.lookup "timestamp" with
      | some (.int n) => n * 1000000000
      | _ => 0
    files_involved := match j.lookup "files_involved" with
      | some v => v.getStrList
      | none => []
    initial_context := match j.lookup "initial_context" with
      | some (.str c) => some c
      | _ => none
    actions := match j.lookup "actions" with
      | some (.arr elems) => elems.map EpisodeAction.from_json
      | _ => []
    outcome := match j.lookup "outcome" with
      | some o => EpisodeOutcome.from_json o
      | none => {}
    learnings := match j.lookup "learnings" with
      | some v => v.getStrList
      | none => []
    keywords := match j.lookup "keywords" with
      | some v => v.getStrList
      | none => [] }

/-! ### Round-trip lemmas for episodic serialization (claim C2) -/

/-- Auxiliary: parsing the serialized form of an action recovers every field
except `result_summary` and `timestamp`, which are not serialized. -/
theorem episodeAction_from_to_json (a : EpisodeAction) :
    EpisodeAction.from_json a.to_json =
      { a with result_summary := "", timestamp := 0 } := by
  cases a with
  | mk tool arguments success error result_summary execution_time timestamp =>
    cases error <;> rfl

/-- Auxiliary: parsing the serialized form of an outcome recovers every field
except `duration` and `summary`, which are not serialized. -/
theorem episodeOutcome_from_to_json (o : EpisodeOutcome) :
    EpisodeOutcome.from_json o.to_json =
      { o with duration := 0, summary := "" } := by
  cases o with
  | mk success turns_taken tools_used total_time duration summary failure_reason =>
    cases failure_reason <;> rfl

/-- Auxiliary: `getStrList` is a left inverse of string-array construction. -/
theorem Json.getStrList_of_strs (l : List String) :
    Json.getStrList (.arr (l.map (.str ·))) = l := by
  induction l with
  | nil => rfl
  | cons x xs ih => simpa [Json.getStrList] using ih

/-- Helper used by the C2 theorems: the fields `Episode::to_json` does not
serialize, reset to the values `Episode::from_json` produces for them. -/
def Episode.withUnserializedCleared (e : Episode) : Episode :=
  { e with
    timestamp := e.timestamp.tdiv 1000000000 * 1000000000
    started_at := 0
    completed_at := 0
    actions := e.actions.map (fun a => { a with result_summary := "", timestamp := 0 })
    outcome := { e.outcome with duration := 0, summary := "" } }

/-- C2 (amended): `Episode::from_json ∘ Episode::to_json` is not the
identity; it returns the episode with exactly the unserialized fields reset:
each action's `result_summary` is cleared and its `timestamp` zeroed, the
episode's `started_at`/`completed_at` are zeroed, the outcome's `duration`
and `summary` are cleared, and the episode timestamp is truncated to whole
seconds.  On episodes in which those fields already hold those values the
round trip is the identity. -/
theorem episode_from_to_json_clears_unserialized (e : Episode) :
    Episode.from_json e.to_json = e.withUnserializedCleared := by
  cases e with
  | mk id ts sa ca td tc pr fi ic acts oc le kw =>
    cases ic <;>
      simp [Episode.to_json, Episode.from_json, Episode.withUnserializedCleared,
            Json.lookup, List.lookup, Json.valueStr, Json.valueInt, Json.valueBool,
            Json.valueJson, Json.getStrList_of_strs, List.map_map,
            episodeOutcome_from_to_json, Function.comp,
            episodeAction_from_to_json]

/-- Concrete episode whose single action carries a non-empty
`result_summary`. -/
def episodeC2 : Episode :=
  { id := "ep-1"
    task_description := "fix the bug"
    actions := [{ tool := "file_read", result_summary := "ten lines" }] }

/-- C2 (counterexample): serialize-then-parse is not the identity on
`Episode`: the action's `result_summary` ("ten lines") comes back empty
because `EpisodeAction::to_json` never writes it. -/
theorem episode_roundtrip_not_identity :
    Episode.from_json episodeC2.to_json ≠ episodeC2 := by
  intro h
  have h2 : (Episode.from_json episodeC2.to_json).actions.map
      EpisodeAction.result_summary = [""] := rfl
  rw [h] at h2
  exact absurd h2 (by decide)

/-! ## Messages and the Claude provider's outbound formatting
(core/types.hpp, llm/providers/claude.cpp) — claim C1 -/

/-- `gpagent::core::Role`. -/
inductive Role where
  | System | User | Assistant | Tool
deriving DecidableEq, Repr

/-- `gpagent::core::ToolCall`. -/
structure ToolCall where
  id : String
  tool_name : String
  arguments : Json := .obj []

/-- `gpagent::core::ImageContent`. -/
structure ImageContent where
  data : String := ""
  media_type : String := ""
  source_path : String := ""

/-- `gpagent::core::Message`. -/
structure Message where
  role : Role
  content : String := ""
  name : Option String := none
  tool_calls : List ToolCall := []
  tool_call_id : Option String := none
  images : List ImageContent := []
  timestamp : Int := 0

namespace ClaudeProvider

/-- An image content block as built in `format_messages`. -/
def imageBlock (img : ImageContent) : Json :=
  .obj [("type", .str "image"),
        ("source", .obj [("type", .str "base64"),
                         ("media_type", .str img.media_type),
                         ("data", .str img.data)])]

/-- A text content block as built in `format_messages`. -/
def textBlock (t : String) : Json :=
  .obj [("type", .str "text"), ("text", .str t)]

/-- A `tool_use` content block as built in `format_messages`. -/
def toolUseBlock (tc : ToolCall) : Json :=
  .obj [("type", .str "tool_use"), ("id", .str tc.id),
        ("name", .str tc.tool_name), ("input", tc.arguments)]

/-- The inner content of a `tool_result` block: images first, then the text
(when non-empty); just the text string when there are no images. -/
def toolResultContent (m : Message) : Json :=
  if m.images.isEmpty then .str m.content
  else
    .arr (m.images.map imageBlock ++
          (if m.content ≠ "" then [textBlock m.content] else []))

/-- The `content` field `format_messages` builds for one message (the body
of the second loop in `ClaudeProvider::format_messages`). -/
def messageContent (m : Message) : Json :=
  if m.role = .Tool then
    .arr [.obj [("type", .str "tool_result"),
                ("tool_use_id", .str (m.tool_call_id.getD "")),
                ("content", toolResultContent m)]]
  else if ¬ m.tool_calls.isEmpty then
    .arr ((if m.content ≠ "" then [textBlock m.content] else []) ++
          m.tool_calls.map toolUseBlock)
  else if ¬ m.images.isEmpty then
    .arr (m.images.map imageBlock ++
          (if m.content ≠ "" then [textBlock m.content] else []))
  else .str m.content

/-- Role string: tool results are transmitted under the `user` role. -/
def roleStr (m : Message) : String :=
  if m.role = .User ∨ m.role = .Tool then "user" else "assistant"

/-- First pass of `format_messages`: every tool-call id appearing in any
Assistant message (the `valid_tool_ids` set). -/
def collect_valid_tool_ids (messages : List Message) : List String :=
  messages.flatMap (fun m =>
    if m.role = .Assistant then m.tool_calls.map ToolCall.id else [])

/-- One iteration of the second loop of `format_messages`: skip System
messages, skip orphan tool results, otherwise emit the formatted entry. -/
def formatOne (validIds : List String) (m : Message) : Option Json :=
  if m.role = .System then none
  else if m.role = .Tool ∧ (m.tool_call_id.getD "") ∉ validIds then none
  else some (.obj [("role", .str (roleStr m)), ("content", messageContent m)])

/-- `ClaudeProvider::format_messages` (claude.cpp). -/
def format_messages (messages : List Message) : List Json :=
  messages.filterMap (formatOne (collect_valid_tool_ids messages))

/-- Whether a content block is a `tool_result` block for the given id. -/
def blockIsToolResultFor (id : String) (b : Json) : Bool :=
  match b.lookup "type", b.lookup "tool_use_id" with
  | some (.str t), some (.str i) => t == "tool_result" && i == id
  | _, _ => false

/-- Whether a content value carries a `tool_result` block for the id. -/
def contentMentionsToolResult (id : String) : Json → Bool
  | .arr blocks => blocks.any (blockIsToolResultFor id)
  | _ => false

/-- Whether a formatted entry carries a `tool_result` block for the id. -/
def entryMentionsToolResult (id : String) (entry : Json) : Bool :=
  match entry.lookup "content" with
  | some c => contentMentionsToolResult id c
  | none => false

theorem blockIsToolResultFor_textBlock (id t : String) :
    blockIsToolResultFor id (textBlock t) = false := rfl

theorem blockIsToolResultFor_imageBlock (id : String) (img : ImageContent) :
    blockIsToolResultFor id (imageBlock img) = false := rfl

theorem blockIsToolResultFor_toolUseBlock (id : String) (tc : ToolCall) :
    blockIsToolResultFor id (toolUseBlock tc) = false := rfl

/-- Membership in `valid_tool_ids` is exactly existence of an Assistant
message carrying a tool call with that id. -/
theorem mem_collect_valid_tool_ids (messages : List Message) (id : String) :
    id ∈ collect_valid_tool_ids messages ↔
      ∃ m ∈ messages, m.role = .Assistant ∧ ∃ tc ∈ m.tool_calls, tc.id = id := by
  simp only [collect_valid_tool_ids, List.mem_flatMap]
  constructor
  · rintro ⟨m, hm, hid⟩
    by_cases h : m.role = Role.Assistant
    · simp only [h, if_pos] at hid
      rcases List.mem_map.mp hid with ⟨tc, htc, rfl⟩
      exact ⟨m, hm, h, tc, htc, rfl⟩
    · simp [h] at hid
  · rintro ⟨m, hm, hrole, tc, htc, rfl⟩
    exact ⟨m, hm, by simp [hrole]; exact ⟨tc, htc, rfl⟩⟩

end ClaudeProvider

namespace ClaudeProvider

/-- On an entry as built by `formatOne`, the tool-result predicate inspects
exactly the content value. -/
theorem entryMentionsToolResult_entry (id : String) (r c : Json) :
    entryMentionsToolResult id (.obj [("role", r), ("content", c)]) =
      contentMentionsToolResult id c := rfl

/-- The content built for a message that is not a tool result never carries
a `tool_result` block. -/
theorem contentMentions_of_not_tool (id : String) (m : Message)
    (h : ¬ m.role = .Tool) :
    contentMentionsToolResult id (messageContent m) = false := by
  unfold messageContent
  rw [if_neg h]
  split_ifs <;>
    simp [contentMentionsToolResult, List.any_append, List.any_map,
      Function.comp, blockIsToolResultFor_textBlock,
      blockIsToolResultFor_imageBlock, blockIsToolResultFor_toolUseBlock]

/-- The content built for a Tool-role message carries a `tool_result` block
for `id` exactly when the message's tool-call id is `id`. -/
theorem contentMentions_of_tool (id : String) (m : Message)
    (h : m.role = .Tool) :
    contentMentionsToolResult id (messageContent m) =
      (m.tool_call_id.getD "" == id) := by
  unfold messageContent
  rw [if_pos h]
  simp [contentMentionsToolResult, blockIsToolResultFor, Json.lookup, List.lookup]

/-- A formatted entry carries a `tool_result` block for `id` exactly when it
was produced from a Tool-role message whose tool-call id is `id`. -/
theorem entryMentionsToolResult_formatOne (v : List String) (m : Message)
    (entry : Json) (id : String) (h : formatOne v m = some entry) :
    (entryMentionsToolResult id entry = true ↔
      m.role = .Tool ∧ m.tool_call_id.getD "" = id) := by
  unfold formatOne at h
  split at h
  · exact absurd h (by simp)
  · split at h
    · exact absurd h (by simp)
    · injection h with h
      subst h
      rw [entryMentionsToolResult_entry]
      by_cases hrole : m.role = .Tool
      · rw [contentMentions_of_tool id m hrole]
        simp [hrole]
      · rw [contentMentions_of_not_tool id m hrole]
        simp [hrole]

end ClaudeProvider

namespace ClaudeProvider

/-- C1 (amended): the formatted output contains a `tool_result` block for
`id` exactly when the input sequence contains a Tool-role message with that
tool-call id AND SOME Assistant message of the sequence (not necessarily an
earlier one — the first pass collects ids from all Assistant messages)
carries a ToolCall with that id.  In particular Tool messages whose id
appears in no Assistant message are dropped. -/
theorem format_messages_tool_result_iff (messages : List Message) (id : String) :
    ((format_messages messages).any (entryMentionsToolResult id) = true) ↔
      ((∃ m ∈ messages, m.role = .Tool ∧ m.tool_call_id.getD "" = id) ∧
       (∃ m ∈ messages, m.role = .Assistant ∧ ∃ tc ∈ m.tool_calls, tc.id = id)) := by
  constructor
  · intro h
    rcases List.any_eq_true.mp h with ⟨entry, hentry, hpred⟩
    rcases List.mem_filterMap.mp hentry with ⟨m, hm, hfmt⟩
    obtain ⟨hrole, hid⟩ :=
      (entryMentionsToolResult_formatOne _ m entry id hfmt).mp hpred
    refine ⟨⟨m, hm, hrole, hid⟩, ?_⟩
    have hval : (m.tool_call_id.getD "") ∈ collect_valid_tool_ids messages := by
      by_contra hnot
      have hnone : formatOne (collect_valid_tool_ids messages) m = none := by
        unfold formatOne
        rw [if_neg (by rw [hrole]; intro hc; cases hc),
            if_pos ⟨hrole, hnot⟩]
      rw [hnone] at hfmt
      cases hfmt
    exact (mem_collect_valid_tool_ids messages id).mp (hid ▸ hval)
  · rintro ⟨⟨m, hm, hrole, hid⟩, hassist⟩
    have hval : (m.tool_call_id.getD "") ∈ collect_valid_tool_ids messages :=
      hid ▸ (mem_collect_valid_tool_ids messages id).mpr hassist
    have hfmt : formatOne (collect_valid_tool_ids messages) m =
        some (.obj [("role", .str (roleStr m)),
                    ("content", messageContent m)]) := by
      unfold formatOne
      rw [if_neg (by rw [hrole]; intro hc; cases hc),
          if_neg (by rintro ⟨-, habs⟩; exact habs hval)]
    refine List.any_eq_true.mpr
      ⟨_, List.mem_filterMap.mpr ⟨m, hm, hfmt⟩, ?_⟩
    exact (entryMentionsToolResult_formatOne _ m _ id hfmt).mpr ⟨hrole, hid⟩

/-- The claim under test for C1, instantiated at a message sequence: every
Tool message whose result block survives into the formatted output is paired
with a ToolCall of the same id in an Assistant message occurring EARLIER in
the sequence. -/
def toolResultsPairedEarlier (messages : List Message) : Prop :=
  ∀ i : Fin messages.length,
    (messages.get i).role = .Tool →
    ((format_messages messages).any
        (entryMentionsToolResult ((messages.get i).tool_call_id.getD "")) = true) →
    ∃ j : Fin messages.length, j.val < i.val ∧
      (messages.get j).role = .Assistant ∧
      ∃ tc ∈ (messages.get j).tool_calls,
        tc.id = (messages.get i).tool_call_id.getD ""

/-- Tool result at position 0, paired Assistant message only at position 1. -/
def msgsC1 : List Message :=
  [{ role := .Tool, content := "ok", tool_call_id := some "tc-x" },
   { role := .Assistant, content := "",
     tool_calls := [{ id := "tc-x", tool_name := "file_read" }] }]

/-- C1 (counterexample): `format_messages` transmits the tool result for
"tc-x" although the only Assistant message carrying that id occurs LATER in
the sequence — the first pass collects ids from all Assistant messages, not
only preceding ones. -/
theorem format_messages_not_paired_earlier :
    ¬ toolResultsPairedEarlier msgsC1 := by
  intro h
  have h0 := h ⟨0, by simp [msgsC1]⟩ rfl rfl
  rcases h0 with ⟨j, hj, -⟩
  exact Nat.not_lt_zero j.val hj

end ClaudeProvider

/-! ## Tool specifications and the registry
(tools/tool_spec.hpp, tools/tool_registry.cpp) — claims C4 and C6 -/

/-- `gpagent::tools::ParamType`. -/
inductive ParamType where
  | String | Integer | Number | Boolean | Array | Object
deriving DecidableEq, Repr

/-- `gpagent::tools::ParamSpec`. -/
structure ParamSpec where
  name : String
  description : String := ""
  type : ParamType := .String
  required : Bool := false
  default_value : Option Json := none
  enum_values : Option (List String) := none

/-- `gpagent::tools::ToolSpec`. -/
structure ToolSpec where
  name : String
  description : String := ""
  parameters : List ParamSpec := []
  keywords : List String := []
  requires_confirmation : Bool := false
  timeout_ms : Int := 60000

/-- `gpagent::tools::ToolContext` (the `config` pointer, opaque to the
registry and executor, is omitted). -/
structure ToolContext where
  session_id : String := ""
  working_directory : String := ""
  allowed_paths : List String := []
  sandbox_enabled : Bool := true
  max_output_lines : Int := 2000
  timeout_ms : Int := 60000
  env : List (String × String) := []

/-- `gpagent::core::ToolResult`. -/
structure ToolResult where
  tool_call_id : String := ""
  success : Bool := false
  content : String := ""
  error_message : Option String := none
  execution_time : Int := 0
  is_image : Bool := false

/-- A tool handler: returns a result or throws (`Except.error` carries the
exception's `what()` text, which `ToolRegistry::execute` catches). -/
def ToolHandler : Type := Json → ToolContext → Except String ToolResult

/-- `gpagent::tools::RegisteredTool`. -/
structure RegisteredTool where
  spec : ToolSpec
  handler : ToolHandler
  enabled : Bool := true
  source : String := "builtin"

namespace Json

/-- `value.is_string()`. -/
def is_string : Json → Bool
  | .str _ => true
  | _ => false

/-- `value.is_number_integer()`. -/
def is_number_integer : Json → Bool
  | .int _ => true
  | _ => false

/-- `value.is_number()` — integers and floating numbers. -/
def is_number : Json → Bool
  | .int _ => true
  | .float _ => true
  | _ => false

/-- `value.is_boolean()`. -/
def is_boolean : Json → Bool
  | .bool _ => true
  | _ => false

/-- `value.is_array()`. -/
def is_array : Json → Bool
  | .arr _ => true
  | _ => false

/-- `value.is_object()`. -/
def is_object : Json → Bool
  | .obj _ => true
  | _ => false

end Json

/-- The `switch (param.type)` of `ToolRegistry::validate_args`. -/
def paramTypeValid (t : ParamType) (v : Json) : Bool :=
  match t with
  | .String => v.is_string
  | .Integer => v.is_number_integer
  | .Number => v.is_number
  | .Boolean => v.is_boolean
  | .Array => v.is_array
  | .Object => v.is_object

namespace ToolRegistry

/-- First loop of `ToolRegistry::validate_args`: every declared `required`
parameter must be present in the argument map. -/
def checkRequired (specName : String) : List ParamSpec → Json → Result Unit Error
  | [], _ => .ok ()
  | p :: ps, args =>
    if p.required && !(args.containsKey p.name) then
      .err { code := .ToolValidationFailed,
             message := "Missing required parameter: " ++ p.name,
             context := some specName }
    else checkRequired specName ps args

/-- Second loop of `ToolRegistry::validate_args`: each supplied declared
argument must match the declared JSON kind, and string values of enumerated
parameters must be members of the enumeration. -/
def checkTypes (specName : String) : List ParamSpec → Json → Result Unit Error
  | [], _ => .ok ()
  | p :: ps, args =>
    match args.lookup p.name with
    | none => checkTypes specName ps args
    | some value =>
      if ¬ paramTypeValid p.type value then
        .err { code := .ToolValidationFailed,
               message := "Invalid type for parameter: " ++ p.name,
               context := some specName }
      else
        match p.enum_values, value with
        | some enum_vals, .str str_value =>
          if str_value ∉ enum_vals then
            .err { code := .ToolValidationFailed,
                   message := "Invalid enum value for parameter: " ++ p.name,
                   context := some specName }
          else checkTypes specName ps args
        | _, _ => checkTypes specName ps args

/-- `ToolRegistry::validate_args` (tool_registry.cpp). -/
def validate_args (spec : ToolSpec) (args : Json) : Result Unit Error :=
  match checkRequired spec.name spec.parameters args with
  | .err e => .err e
  | .ok _ => checkTypes spec.name spec.parameters args

/-- `ToolRegistry::execute` (tool_registry.cpp).  The registry's
`unordered_map` is an association list; the wall-clock duration measured
around the handler call is the explicit `elapsed` parameter. -/
def execute (tools : List (String × RegisteredTool)) (id : String)
    (args : Json) (ctx : ToolContext) (elapsed : Int) : Result ToolResult Error :=
  match tools.lookup id with
  | none =>
    .err { code := .ToolNotFound, message := "Tool not found", context := some id }
  | some tool =>
    if ¬ tool.enabled then
      .err { code := .ToolDisabled, message := "Tool is disabled", context := some id }
    else
      match validate_args tool.spec args with
      | .err e => .err e
      | .ok _ =>
        match tool.handler args ctx with
        | .ok result => .ok { result with execution_time := elapsed }
        | .error ex =>
          .err { code := .ToolExecutionFailed, message := ex, context := some id }

end ToolRegistry

namespace ToolRegistry

/-- The required-parameter loop fails exactly when some declared required
parameter is absent from the argument map. -/
theorem checkRequired_err_iff (n : String) (ps : List ParamSpec) (args : Json) :
    (∃ e, checkRequired n ps args = .err e) ↔
      ∃ p ∈ ps, p.required = true ∧ args.containsKey p.name = false := by
  induction ps with
  | nil => simp [checkRequired]
  | cons p ps ih =>
    by_cases h : (p.required && !(args.containsKey p.name)) = true
    · simp only [checkRequired, if_pos h]
      rcases Bool.and_eq_true .. |>.mp h with ⟨h1, h2⟩
      simp only [Bool.not_eq_true'] at h2
      constructor
      · intro
        exact ⟨p, by simp, h1, h2⟩
      · intro
        exact ⟨_, rfl⟩
    · simp only [checkRequired, if_neg h]
      rw [ih]
      constructor
      · rintro ⟨q, hq, h1, h2⟩
        exact ⟨q, by simp [hq], h1, h2⟩
      · rintro ⟨q, hq, h1, h2⟩
        rcases List.mem_cons.mp hq with rfl | hq2
        · exact absurd (by rw [h1, h2]; rfl) h
        · exact ⟨q, hq2, h1, h2⟩

/-- The type/enum loop fails exactly when some supplied declared argument
has the wrong JSON kind, or is a string outside its declared enumeration. -/
theorem checkTypes_err_iff (n : String) (ps : List ParamSpec) (args : Json) :
    (∃ e, checkTypes n ps args = .err e) ↔
      ((∃ p ∈ ps, ∃ v, args.lookup p.name = some v ∧
          paramTypeValid p.type v = false) ∨
       (∃ p ∈ ps, ∃ ev s, p.enum_values = some ev ∧
          args.lookup p.name = some (.str s) ∧ s ∉ ev)) := by
  induction ps with
  | nil => simp [checkTypes]
  | cons p ps ih =>
    simp only [checkTypes]
    cases hv : args.lookup p.name with
    | none =>
      rw [ih]
      constructor
      · rintro (⟨q, hq, hrest⟩ | ⟨q, hq, hrest⟩)
        · exact Or.inl ⟨q, by simp [hq], hrest⟩
        · exact Or.inr ⟨q, by simp [hq], hrest⟩
      · rintro (⟨q, hq, v, hv2, hbad⟩ | ⟨q, hq, ev, sN, he, hv2, hbad⟩)
        · rcases List.mem_cons.mp hq with rfl | hq2
          · rw [hv] at hv2; cases hv2
          · exact Or.inl ⟨q, hq2, v, hv2, hbad⟩
        · rcases List.mem_cons.mp hq with rfl | hq2
          · rw [hv] at hv2; cases hv2
          · exact Or.inr ⟨q, hq2, ev, sN, he, hv2, hbad⟩
    | some v =>
      simp only []
      by_cases hval : paramTypeValid p.type v = true
      · rw [if_neg (by simp [hval])]
        have step : (∃ e, (match p.enum_values, v with
            | some enum_vals, .str str_value =>
              if str_value ∉ enum_vals then
                (.err { code := .ToolValidationFailed,
                        message := "Invalid enum value for parameter: " ++ p.name,
                        context := some n } : Result Unit Error)
              else checkTypes n ps args
            | _, _ => checkTypes n ps args) = .err e) ↔
            ((∃ ev s, p.enum_values = some ev ∧ v = .str s ∧ s ∉ ev) ∨
             (∃ e, checkTypes n ps args = .err e)) := by
          cases he : p.enum_values with
          | none => simp [he]
          | some ev =>
            cases v with
            | str sv =>
              by_cases hin : sv ∈ ev
              · simp [hin]
              · simp [hin]
            | null => simp
            | bool b => simp
            | int k => simp
            | float q => simp
            | arr l => simp
            | obj l => simp
        rw [step, ih]
        constructor
        · rintro (⟨ev, sv, he, rfl, hnot⟩ | (⟨q, hq, hrest⟩ | ⟨q, hq, hrest⟩))
          · exact Or.inr ⟨p, by simp, ev, sv, he, hv, hnot⟩
          · exact Or.inl ⟨q, by simp [hq], hrest⟩
          · exact Or.inr ⟨q, by simp [hq], hrest⟩
        · rintro (⟨q, hq, w, hw, hbad⟩ | ⟨q, hq, ev, sv, he, hw, hbad⟩)
          · rcases List.mem_cons.mp hq with rfl | hq2
            · rw [hv] at hw; injection hw with hw; rw [← hw] at hbad
              rw [hval] at hbad; cases hbad
            · exact Or.inr (Or.inl ⟨q, hq2, w, hw, hbad⟩)
          · rcases List.mem_cons.mp hq with rfl | hq2
            · rw [hv] at hw; injection hw with hw
              exact Or.inl ⟨ev, sv, he, hw, hbad⟩
            · exact Or.inr (Or.inr ⟨q, hq2, ev, sv, he, hw, hbad⟩)
      · rw [if_pos (by simp [Bool.not_eq_true] at hval; simp [hval])]
        constructor
        · intro
          exact Or.inl ⟨p, by simp, v, hv,
            by simp [Bool.not_eq_true] at hval; exact hval⟩
        · intro
          exact ⟨_, rfl⟩

/-- Every error produced by the required-parameter loop carries
`ToolValidationFailed`. -/
theorem checkRequired_err_code (n : String) (ps : List ParamSpec) (args : Json) :
    ∀ e : Error, checkRequired n ps args = .err e →
      e.code = .ToolValidationFailed := by
  induction ps with
  | nil => intro e h; simp [checkRequired] at h
  | cons p ps ih =>
    intro e h
    unfold checkRequired at h
    split at h
    · injection h with h
      rw [← h]
    · exact ih e h

/-- Every error produced by the type/enum loop carries
`ToolValidationFailed`. -/
theorem checkTypes_err_code (n : String) (ps : List ParamSpec) (args : Json) :
    ∀ e : Error, checkTypes n ps args = .err e →
      e.code = .ToolValidationFailed := by
  induction ps with
  | nil => intro e h; simp [checkTypes] at h
  | cons p ps ih =>
    intro e h
    unfold checkTypes at h
    split at h
    · exact ih e h
    · split at h
      · injection h with h
        rw [← h]
      · split at h
        · split at h
          · injection h with h
            rw [← h]
          · exact ih e h
        · exact ih e h

end ToolRegistry

namespace ToolRegistry

/-- `validate_args` fails exactly when one of its two loops fails. -/
theorem validate_args_err_iff (spec : ToolSpec) (args : Json) :
    (∃ e, validate_args spec args = .err e) ↔
      ((∃ e, checkRequired spec.name spec.parameters args = .err e) ∨
       (∃ e, checkTypes spec.name spec.parameters args = .err e)) := by
  unfold validate_args
  cases h : checkRequired spec.name spec.parameters args with
  | ok u =>
    cases u
    simp only [h]
    constructor
    · intro he
      exact Or.inr he
    · rintro (⟨e, he⟩ | he)
      · cases he
      · exact he
  | err e =>
    simp only [h]
    constructor
    · intro
      exact Or.inl ⟨e, rfl⟩
    · intro
      exact ⟨e, rfl⟩

/-- Every error produced by `validate_args` carries `ToolValidationFailed`. -/
theorem validate_args_err_code (spec : ToolSpec) (args : Json) (e : Error)
    (h : validate_args spec args = .err e) : e.code = .ToolValidationFailed := by
  unfold validate_args at h
  split at h
  · injection h with h
    subst h
    rename_i e0 heq
    exact checkRequired_err_code spec.name spec.parameters args e0 heq
  · exact checkTypes_err_code spec.name spec.parameters args e h

/-- C4: for a registered, enabled tool, `ToolRegistry::execute` returns a
`ToolValidationFailed` error exactly when a declared required parameter is
absent from the arguments, or a supplied declared argument's JSON kind
differs from the declared type, or a string value of an enumerated parameter
is outside the enumeration — undeclared argument names never appear in any
of these conditions, so they never cause an error; when validation passes
the handler is invoked and alone determines the outcome, and when validation
fails the result is that validation error for every registry entry with the
same spec, irrespective of the handler. -/
theorem execute_validation_gate (tools : List (String × RegisteredTool))
    (id : String) (tool : RegisteredTool) (args : Json) (ctx : ToolContext)
    (elapsed : Int) (hfind : tools.lookup id = some tool)
    (hen : tool.enabled = true) :
    ((∃ e, execute tools id args ctx elapsed = .err e ∧
        e.code = .ToolValidationFailed) ↔
      ((∃ p ∈ tool.spec.parameters, p.required = true ∧
          args.containsKey p.name = false) ∨
       (∃ p ∈ tool.spec.parameters, ∃ v, args.lookup p.name = some v ∧
          paramTypeValid p.type v = false) ∨
       (∃ p ∈ tool.spec.parameters, ∃ ev s, p.enum_values = some ev ∧
          args.lookup p.name = some (.str s) ∧ s ∉ ev)))
    ∧ (validate_args tool.spec args = .ok () →
        execute tools id args ctx elapsed =
          (match tool.handler args ctx with
           | .ok r => .ok { r with execution_time := elapsed }
           | .error ex => .err { code := .ToolExecutionFailed, message := ex,
                                 context := some id }))
    ∧ (∀ e, validate_args tool.spec args = .err e →
        ∀ (tools' : List (String × RegisteredTool)) (tool' : RegisteredTool),
          tools'.lookup id = some tool' → tool'.enabled = true →
          tool'.spec = tool.spec →
          execute tools' id args ctx elapsed = .err e) := by
  have hexec : ∀ (ts : List (String × RegisteredTool)) (t : RegisteredTool),
      ts.lookup id = some t → t.enabled = true →
      execute ts id args ctx elapsed =
        (match validate_args t.spec args with
         | .err e => .err e
         | .ok _ =>
           match t.handler args ctx with
           | .ok result => .ok { result with execution_time := elapsed }
           | .error ex => .err { code := .ToolExecutionFailed, message := ex,
                                 context := some id }) := by
    intro ts t hf he
    unfold execute
    rw [hf]
    simp only []
    rw [if_neg (by simp [he])]
  refine ⟨?_, ?_, ?_⟩
  · rw [show (((∃ p ∈ tool.spec.parameters, p.required = true ∧
          args.containsKey p.name = false) ∨
       (∃ p ∈ tool.spec.parameters, ∃ v, args.lookup p.name = some v ∧
          paramTypeValid p.type v = false) ∨
       (∃ p ∈ tool.spec.parameters, ∃ ev s, p.enum_values = some ev ∧
          args.lookup p.name = some (.str s) ∧ s ∉ ev))) =
        ((∃ p ∈ tool.spec.parameters, p.required = true ∧
          args.containsKey p.name = false) ∨
        ((∃ p ∈ tool.spec.parameters, ∃ v, args.lookup p.name = some v ∧
          paramTypeValid p.type v = false) ∨
         (∃ p ∈ tool.spec.parameters, ∃ ev s, p.enum_values = some ev ∧
          args.lookup p.name = some (.str s) ∧ s ∉ ev))) from rfl,
       ← checkRequired_err_iff tool.spec.name, ← checkTypes_err_iff tool.spec.name,
       ← validate_args_err_iff]
    rw [hexec tools tool hfind hen]
    constructor
    · rintro ⟨e, he, hcode⟩
      cases hv : validate_args tool.spec args with
      | err e0 => exact ⟨e0, rfl⟩
      | ok u =>
        exfalso
        rw [hv] at he
        cases hh : tool.handler args ctx with
        | ok r => rw [hh] at he; cases he
        | error ex =>
          rw [hh] at he
          injection he with he
          rw [← he] at hcode
          cases hcode
    · rintro ⟨e, he⟩
      rw [he]
      exact ⟨e, rfl, validate_args_err_code tool.spec args e he⟩
  · intro hok
    rw [hexec tools tool hfind hen, hok]
  · intro e he tools' tool' hf' hen' hspec
    rw [hexec tools' tool' hf' hen', hspec, he]

end ToolRegistry

/-- A registered tool for the C4 witness: a required `file_path` string
parameter and an enumerated optional `mode` parameter. -/
def toolC4 : RegisteredTool :=
  { spec := { name := "file_read",
              parameters :=
                [{ name := "file_path", type := .String, required := true },
                 { name := "mode", type := .String,
                   enum_values := some ["text", "binary"] }] },
    handler := fun _ _ => .ok { success := true, content := "data" } }

/-- Registry holding the witness tool. -/
def toolsC4 : List (String × RegisteredTool) := [("file_read", toolC4)]

/-- C4 (witness): with the required `file_path` missing (and an undeclared
argument present), `execute` on the registered, enabled tool returns a
`ToolValidationFailed` error. -/
theorem execute_validation_gate_witness :
    ∃ e, ToolRegistry.execute toolsC4 "file_read"
        (.obj [("unknown", .int 3)]) {} 5 = .err e ∧
      e.code = .ToolValidationFailed :=
  (ToolRegistry.execute_validation_gate toolsC4 "file_read" toolC4
      (.obj [("unknown", .int 3)]) {} 5 rfl rfl).1.mpr
    (Or.inl ⟨{ name := "file_path", type := .String, required := true },
      by simp [toolC4], rfl, rfl⟩)

/-! ## Tool executor (tools/tool_executor.cpp) — claim C6 -/

namespace ToolExecutor

/-- `ToolExecutor::execute` (tool_executor.cpp): dispatch through the
registry, stamping the call id on a successful result.  (The stats counters
updated under the stats mutex do not affect the returned value and are
omitted.) -/
def execute (tools : List (String × RegisteredTool)) (call : ToolCall)
    (ctx : ToolContext) (elapsed : Int) : Result ToolResult Error :=
  match ToolRegistry.execute tools call.tool_name call.arguments ctx elapsed with
  | .ok res => .ok { res with tool_call_id := call.id }
  | .err e => .err e

/-- The per-call task `execute_batch` submits to the worker pool: a registry
error is converted into a failed `ToolResult` carrying the error text. -/
def batchTask (tools : List (String × RegisteredTool)) (ctx : ToolContext)
    (elapsed : Int) (call : ToolCall) : ToolResult :=
  match execute tools call ctx elapsed with
  | .ok r => r
  | .err e => { tool_call_id := call.id, success := false, content := "",
                error_message := some e.full_message }

/-- `ToolExecutor::execute_batch` (tool_executor.cpp): one future per call;
the futures are drained in submission order, so the value returned is the
in-order list of per-call results (handlers run in pool workers, but each
task only touches its own call, so the per-call value is `batchTask`). -/
def execute_batch (tools : List (String × RegisteredTool))
    (calls : List ToolCall) (ctx : ToolContext) (elapsed : Int) : List ToolResult :=
  calls.map (batchTask tools ctx elapsed)

/-- C6: `execute_batch` returns exactly one result per call, in input order:
the i-th result carries the i-th call's id — both when the registry succeeds
(the id is stamped on the handler's result) and when it fails (the error is
converted into a failed result whose `error_message` is the error text). -/
theorem execute_batch_aligned (tools : List (String × RegisteredTool))
    (calls : List ToolCall) (ctx : ToolContext) (elapsed : Int) :
    (execute_batch tools calls ctx elapsed).length = calls.length
    ∧ ∀ i : Nat, ∀ h : i < calls.length,
        (((execute_batch tools calls ctx elapsed).get
            ⟨i, by simpa [execute_batch] using h⟩).tool_call_id
          = (calls.get ⟨i, h⟩).id)
        ∧ (∀ e, ToolRegistry.execute tools (calls.get ⟨i, h⟩).tool_name
              (calls.get ⟨i, h⟩).arguments ctx elapsed = .err e →
            (execute_batch tools calls ctx elapsed).get
                ⟨i, by simpa [execute_batch] using h⟩ =
              { tool_call_id := (calls.get ⟨i, h⟩).id, success := false,
                content := "", error_message := some e.full_message }) := by
  refine ⟨by simp [execute_batch], ?_⟩
  intro i h
  have hget : (execute_batch tools calls ctx elapsed).get
      ⟨i, by simpa [execute_batch] using h⟩ =
      batchTask tools ctx elapsed (calls.get ⟨i, h⟩) := by
    simp [execute_batch]
  constructor
  · rw [hget]
    unfold batchTask execute
    cases hr : ToolRegistry.execute tools (calls.get ⟨i, h⟩).tool_name
        (calls.get ⟨i, h⟩).arguments ctx elapsed with
    | ok r => rfl
    | err e => rfl
  · intro e he
    rw [hget]
    unfold batchTask execute
    rw [he]

end ToolExecutor

/-- Single-call batch for the C6 witness (run against an empty registry so
the registry error path is exercised). -/
def callsC6 : List ToolCall := [{ id := "c1", tool_name := "file_read" }]

/-- C6 (witness): on the concrete one-call batch the result list has length
one and its only entry carries the call's id. -/
theorem execute_batch_aligned_witness :
    (ToolExecutor.execute_batch [] callsC6 {} 1).length = callsC6.length ∧
    ((ToolExecutor.execute_batch [] callsC6 {} 1).get
        ⟨0, by decide⟩).tool_call_id = (callsC6.get ⟨0, by decide⟩).id :=
  ⟨(ToolExecutor.execute_batch_aligned [] callsC6 {} 1).1,
   ((ToolExecutor.execute_batch_aligned [] callsC6 {} 1).2 0 (by decide)).1⟩

/-! ## LLM gateway failover (llm/llm_gateway.cpp) — claim C5 -/

/-- `gpagent::core::TokenUsage`. -/
structure TokenUsage where
  input_tokens : Int := 0
  output_tokens : Int := 0
deriving DecidableEq, Repr

/-- `gpagent::core::StopReason`. -/
inductive StopReason where
  | EndTurn | MaxTokens | ToolUse | StopSequence | Error
deriving DecidableEq, Repr

/-- `gpagent::core::LLMResponse`. -/
structure LLMResponse where
  content : String := ""
  tool_calls : List ToolCall := []
  stop_reason : StopReason := .EndTurn
  usage : TokenUsage := {}
  model : String := ""
  latency : Int := 0

/-- Model of one provider handle for a fixed request: whether it holds
credentials (`is_available`) and the outcome its `complete` produces for
the request under consideration (the network call made explicit). -/
structure ProviderModel where
  available : Bool
  response : Result LLMResponse Error

/-- Which provider an attempt was made on. -/
inductive Attempt where
  | primary | fallback
deriving DecidableEq, Repr

namespace LLMGateway

/-- `LLMGateway::complete` (llm_gateway.cpp), instrumented with the ordered
list of provider attempts.  (The usage-statistics counters do not affect the
returned value and are omitted.) -/
def complete (primary fallback : Option ProviderModel) :
    Result LLMResponse Error × List Attempt :=
  match primary with
  | none =>
    (.err { code := .LLMProviderUnavailable,
            message := "No LLM provider configured" }, [])
  | some p =>
    if p.available then
      match p.response with
      | .ok v => (.ok v, [.primary])
      | .err e =>
        match fallback with
        | some fb =>
          if e.is_retriable && fb.available then
            (fb.response, [.primary, .fallback])
          else (.err e, [.primary])
        | none => (.err e, [.primary])
    else
      match fallback with
      | some fb =>
        if fb.available then (fb.response, [.fallback])
        else (.err { code := .LLMProviderUnavailable,
                     message := "No LLM provider available" }, [])
      | none =>
        (.err { code := .LLMProviderUnavailable,
                message := "No LLM provider available" }, [])

/-- C5: with an available primary, `complete` always tries the primary
first; it makes exactly one further attempt — on the fallback — if and only
if the primary's error is retriable and an available fallback exists, in
which case the fallback's result is returned; a non-retriable primary error
is returned immediately with no fallback attempt. -/
theorem complete_failover (p : ProviderModel) (fb? : Option ProviderModel)
    (hav : p.available = true) :
    ((complete (some p) fb?).2.head? = some .primary)
    ∧ ((complete (some p) fb?).2 = [.primary, .fallback] ↔
        ((∃ e, p.response = .err e ∧ e.is_retriable = true) ∧
         (∃ fb, fb? = some fb ∧ fb.available = true)))
    ∧ (∀ fb, fb? = some fb → (complete (some p) fb?).2 = [.primary, .fallback] →
        (complete (some p) fb?).1 = fb.response)
    ∧ (∀ e, p.response = .err e → e.is_retriable = false →
        complete (some p) fb? = (.err e, [.primary])) := by
  unfold complete
  simp only []
  rw [if_pos hav]
  cases hr : p.response with
  | ok v =>
    simp only []
    refine ⟨rfl, ?_, ?_, ?_⟩
    · simp
    · intro fb hfb habs
      cases habs
    · intro e he
      cases he
  | err e =>
    simp only []
    cases hfb : fb? with
    | none =>
      simp only []
      refine ⟨rfl, ?_, ?_, ?_⟩
      · constructor
        · intro habs; cases habs
        · rintro ⟨-, fb, hfb2, -⟩; cases hfb2
      · intro fb hfb2; cases hfb2
      · intro e0 he0 hnr
        injection he0 with he0
        rw [he0]
    | some fb =>
      simp only []
      by_cases hcond : (e.is_retriable && fb.available) = true
      · rw [if_pos hcond]
        rcases Bool.and_eq_true .. |>.mp hcond with ⟨h1, h2⟩
        refine ⟨rfl, ?_, ?_, ?_⟩
        · exact ⟨fun _ => ⟨⟨e, rfl, h1⟩, ⟨fb, rfl, h2⟩⟩, fun _ => rfl⟩
        · intro fb2 hfb2 htriv
          injection hfb2 with hfb2
          rw [hfb2]
        · intro e0 he0 hnr
          injection he0 with he0
          rw [← he0] at hnr
          rw [hnr] at h1
          cases h1
      · rw [if_neg hcond]
        refine ⟨rfl, ?_, ?_, ?_⟩
        · constructor
          · intro habs; cases habs
          · rintro ⟨⟨e0, he0, hret⟩, fb2, hfb2, hav2⟩
            injection he0 with he0
            injection hfb2 with hfb2
            rw [← he0] at hret
            rw [← hfb2] at hav2
            rw [hret, hav2] at hcond
            exact (hcond rfl).elim
        · intro fb2 hfb2 habs
          cases habs
        · intro e0 he0 hnr
          injection he0 with he0
          rw [he0]

end LLMGateway

/-- Primary provider for the C5 witness: available, failing with a rate
limit (retriable). -/
def primC5 : ProviderModel :=
  { available := true,
    response := .err { code := .LLMRateLimited, message := "rate limited" } }

/-- Fallback provider for the C5 witness: available and succeeding. -/
def fbC5 : ProviderModel :=
  { available := true, response := .ok { content := "hello" } }

/-- C5 (witness): with a rate-limited primary and an available fallback, the
gateway attempts primary then fallback and returns the fallback's result. -/
theorem complete_failover_witness :
    (LLMGateway.complete (some primC5) (some fbC5)).2.head? = some .primary ∧
    (LLMGateway.complete (some primC5) (some fbC5)).2 = [.primary, .fallback] ∧
    (LLMGateway.complete (some primC5) (some fbC5)).1 = fbC5.response :=
  ⟨(LLMGateway.complete_failover primC5 (some fbC5) rfl).1,
   (LLMGateway.complete_failover primC5 (some fbC5) rfl).2.1.mpr
     ⟨⟨_, rfl, rfl⟩, ⟨fbC5, rfl, rfl⟩⟩,
   (LLMGateway.complete_failover primC5 (some fbC5) rfl).2.2.1 fbC5 rfl
     ((LLMGateway.complete_failover primC5 (some fbC5) rfl).2.1.mpr
       ⟨⟨_, rfl, rfl⟩, ⟨fbC5, rfl, rfl⟩⟩)⟩

/-! ## Context builder (context/context_manager.cpp) — claim C7 -/

/-- Lower-case hexadecimal digit (for JSON control-character escapes). -/
def hexDigit (n : Nat) : Char :=
  if n < 10 then Char.ofNat (48 + n) else Char.ofNat (87 + n)

/-- JSON string escaping as `nlohmann::json::dump` performs it: quote,
backslash, the short control escapes, and `\u00XX` for remaining control
characters. -/
def escapeChar (c : Char) : String :=
  let n := c.toNat
  if n = 34 then "\\\""
  else if n = 92 then "\\\\"
  else if n = 8 then "\\b"
  else if n = 9 then "\\t"
  else if n = 10 then "\\n"
  else if n = 12 then "\\f"
  else if n = 13 then "\\r"
  else if n < 32 then
    String.mk [Char.ofNat 92, Char.ofNat 117, Char.ofNat 48, Char.ofNat 48,
               hexDigit (n / 16), hexDigit (n % 16)]
  else String.mk [c]

/-- Escape a whole string for JSON output. -/
def escapeString (s : String) : String :=
  String.join (s.toList.map escapeChar)

mutual

/-- `nlohmann::json::dump()` (compact form, no indentation).  Two modelling
notes: nlohmann stores objects in a `std::map`, so real dumps emit keys in
sorted order — the model emits them in construction order, which leaves the
dump's LENGTH (the only thing the embedded code reads) unchanged; and the
textual form of floating numbers is approximated by `toString` of the
rational (no verified statement touches a float dump). -/
def Json.dump : Json → String
  | .null => "null"
  | .bool true => "true"
  | .bool false => "false"
  | .int n => toString n
  | .float q => toString q
  | .str s => "\"" ++ escapeString s ++ "\""
  | .arr elems => "[" ++ Json.dumpList elems ++ "]"
  | .obj fields => "\x7b" ++ Json.dumpFields fields ++ "\x7d"

/-- Comma-separated dump of array elements. -/
def Json.dumpList : List Json → String
  | [] => ""
  | [x] => Json.dump x
  | x :: y :: xs => Json.dump x ++ "," ++ Json.dumpList (y :: xs)

/-- Comma-separated dump of object fields. -/
def Json.dumpFields : List (String × Json) → String
  | [] => ""
  | [(k, v)] => "\"" ++ escapeString k ++ "\":" ++ Json.dump v
  | (k, v) :: y :: xs =>
    "\"" ++ escapeString k ++ "\":" ++ Json.dump v ++ "," ++ Json.dumpFields (y :: xs)

end

/-- `gpagent::core::ContextConfig` (core/config.hpp; the `int` fields are
non-negative in every configuration the program accepts). -/
structure ContextConfig where
  max_tokens : Nat := 180000
  compaction_threshold : Nat := 150000
  keep_raw_turns : Nat := 10
  summarize_batch : Nat := 21
  reserved_for_response : Nat := 30000

/-- `gpagent::context::ContextWindow`. -/
structure ContextWindow where
  system_prompt : String := ""
  messages : List Message := []
  tools : Json := .null
  estimated_tokens : Nat := 0
  was_compacted : Bool := false

/-- The builder's accumulated state (the private fields of
`gpagent::context::ContextBuilder`; `tools_` default-constructs to JSON
null). -/
structure ContextBuilder where
  config : ContextConfig
  system_prompt : String := ""
  user_memory : String := ""
  project_memory : String := ""
  compressed_history : String := ""
  messages : List Message := []
  tools : Json := .null
  episodes_context : String := ""
  task_context : String := ""

namespace ContextBuilder

/-- `ContextBuilder::estimate_tokens`: `int(text.length() / 3.5)`, i.e.
`⌊2·len/7⌋` (exact for every length the double arithmetic represents). -/
def estimate_tokens (text : String) : Nat :=
  2 * text.length / 7

/-- `ContextBuilder::estimate_message_tokens`: role overhead 3, the content
estimate, and per tool call 10 plus the estimates of the tool NAME and of
the dumped argument JSON. -/
def estimate_message_tokens (m : Message) : Nat :=
  3 + estimate_tokens m.content +
    m.tool_calls.foldl
      (fun acc tc =>
        acc + (10 + estimate_tokens tc.tool_name +
               estimate_tokens tc.arguments.dump)) 0

/-- `ContextBuilder::estimated_tokens`. -/
def estimated_tokens (b : ContextBuilder) : Nat :=
  estimate_tokens b.system_prompt + estimate_tokens b.user_memory +
  estimate_tokens b.project_memory + estimate_tokens b.compressed_history +
  estimate_tokens b.episodes_context + estimate_tokens b.task_context +
  b.messages.foldl (fun acc m => acc + estimate_message_tokens m) 0 +
  (if b.tools.isEmptyJson then 0 else estimate_tokens b.tools.dump)

/-- The system prompt `ContextBuilder::build` assembles from the layers. -/
def assembledSystemPrompt (b : ContextBuilder) : String :=
  b.system_prompt
    ++ (if b.user_memory ≠ "" then "\n\n## User Memory\n" ++ b.user_memory else "")
    ++ (if b.project_memory ≠ "" then
          "\n\n## Project Memory\n" ++ b.project_memory else "")
    ++ (if b.compressed_history ≠ "" then
          "\n\n## Conversation History Summary\n" ++ b.compressed_history else "")
    ++ (if b.episodes_context ≠ "" then "\n\n" ++ b.episodes_context else "")
    ++ (if b.task_context ≠ "" then
          "\n\n## Current Task\n" ++ b.task_context else "")

/-- `ContextBuilder::build` (context_manager.cpp). -/
def build (b : ContextBuilder) : Result ContextWindow Error :=
  let window : ContextWindow :=
    { system_prompt := b.assembledSystemPrompt
      messages := b.messages
      tools := b.tools
      estimated_tokens := b.estimated_tokens }
  if window.estimated_tokens > b.config.max_tokens then
    .err { code := .ContextTooLarge,
           message := "Context exceeds maximum tokens: " ++
             toString window.estimated_tokens ++ " > " ++
             toString b.config.max_tokens }
  else .ok window

end ContextBuilder

/-- Modelled from the claim's wording for C7 (NOT from the source): the
estimate as the claim describes it — characters divided by 3.5 per text
layer, plus 3 per message for role overhead, plus 10 per tool call plus the
estimate of the call's argument JSON.  It omits the estimate of each tool
call's name, which the source's estimator adds. -/
def specEstimatedTokens (b : ContextBuilder) : Nat :=
  ContextBuilder.estimate_tokens b.system_prompt +
  ContextBuilder.estimate_tokens b.user_memory +
  ContextBuilder.estimate_tokens b.project_memory +
  ContextBuilder.estimate_tokens b.compressed_history +
  ContextBuilder.estimate_tokens b.episodes_context +
  ContextBuilder.estimate_tokens b.task_context +
  b.messages.foldl
    (fun acc m =>
      acc + (3 + ContextBuilder.estimate_tokens m.content +
        m.tool_calls.foldl
          (fun a tc => a + (10 + ContextBuilder.estimate_tokens tc.arguments.dump))
          0)) 0 +
  (if b.tools.isEmptyJson then 0
   else ContextBuilder.estimate_tokens b.tools.dump)

/-- C7 (amended): `build` returns a ContextTooLarge error if and only if the
code's estimate — which per tool call also counts the tool NAME's characters
in addition to the 10-token overhead and the argument JSON — exceeds the
configured `max_tokens`; otherwise it returns the assembled window carrying
that estimate. -/
theorem build_context_too_large_iff (b : ContextBuilder) :
    ((∃ e, b.build = .err e ∧ e.code = .ContextTooLarge) ↔
      b.estimated_tokens > b.config.max_tokens)
    ∧ (b.estimated_tokens ≤ b.config.max_tokens →
        b.build = .ok { system_prompt := b.assembledSystemPrompt,
                        messages := b.messages,
                        tools := b.tools,
                        estimated_tokens := b.estimated_tokens }) := by
  constructor
  · unfold ContextBuilder.build
    by_cases h : b.estimated_tokens > b.config.max_tokens
    · rw [if_pos h]
      exact ⟨fun _ => h, fun _ => ⟨_, rfl, rfl⟩⟩
    · rw [if_neg h]
      constructor
      · rintro ⟨e, he, -⟩
        cases he
      · intro hgt
        exact absurd hgt h
  · intro hle
    unfold ContextBuilder.build
    rw [if_neg (Nat.not_lt.mpr hle)]

/-- Tool call of the C7 counterexample: a 35-character tool name and
arguments that dump to the two-character empty-object string. -/
def tcC7 : ToolCall :=
  { id := "c", tool_name := "aaaaaaaaaaaaaaaaaaaaaaaaaaaaaaaaaaa",
    arguments := .obj [] }

/-- The single message of the C7 counterexample builder. -/
def msgC7 : Message :=
  { role := .User, content := "", tool_calls := [tcC7] }

/-- Builder state of the C7 counterexample. -/
def builderC7 : ContextBuilder :=
  { config := { max_tokens := 15 }, messages := [msgC7] }

/-- C7 (counterexample): on `builderC7` the estimate as the claim words it
(no tool-name term) is 13 ≤ max_tokens = 15, yet `build` rejects the window
with ContextTooLarge because the code's estimator also counts the 35
characters of the tool name (total 23 > 15). -/
theorem build_rejects_within_claimed_estimate :
    specEstimatedTokens builderC7 ≤ builderC7.config.max_tokens ∧
    (∃ e, ContextBuilder.build builderC7 = .err e ∧
      e.code = .ContextTooLarge) := by
  refine ⟨by decide, ⟨_, rfl, rfl⟩⟩

/-! ## TRM recommender (trm/trm_model.cpp) — claims C3 and C9

`float` scores become `ℚ`; the score arithmetic appearing in any evaluated
statement below is exact in single precision as well, so no comparison in a
theorem depends on rounding. -/

/-- ASCII `tolower` (C locale). -/
def asciiTolower (c : Char) : Char :=
  let n := c.toNat
  if 65 ≤ n ∧ n ≤ 90 then Char.ofNat (n + 32) else c

/-- ASCII `ispunct` (C locale): printable, not alphanumeric, not space. -/
def isAsciiPunct (c : Char) : Bool :=
  let n := c.toNat
  (33 ≤ n && n ≤ 47) || (58 ≤ n && n ≤ 64) ||
  (91 ≤ n && n ≤ 96) || (123 ≤ n && n ≤ 126)

/-- ASCII `isspace` (C locale) — the separators `operator>>` skips. -/
def isAsciiSpace (c : Char) : Bool :=
  let n := c.toNat
  n = 32 || (9 ≤ n && n ≤ 13)

/-- Lower-case a string character-wise. -/
def toLowerStr (s : String) : String :=
  String.mk (s.toList.map asciiTolower)

/-- Remove punctuation characters from a word. -/
def stripPunct (s : String) : String :=
  String.mk (s.toList.filter (fun c => !(isAsciiPunct c)))

/-- Whitespace tokenizer (`istringstream >> word`). -/
def splitWordsAux : List Char → List Char → List String
  | [], acc => if acc.isEmpty then [] else [String.mk acc.reverse]
  | c :: cs, acc =>
    if isAsciiSpace c then
      if acc.isEmpty then splitWordsAux cs []
      else String.mk acc.reverse :: splitWordsAux cs []
    else splitWordsAux cs (c :: acc)

/-- Split a string into whitespace-separated words. -/
def splitWords (s : String) : List String :=
  splitWordsAux s.toList []

/-- `gpagent::trm::TRMStatus`. -/
inductive TRMStatus where
  | NotInitialized | ColdStart | Training | Ready | Fallback
deriving DecidableEq, Repr

/-- `gpagent::trm::TRMPrediction`.  (`confidence` has no initializer in the
C++ struct; the one state in which the code can return it unassigned —
`fallback_predict` with an empty tool list — is modelled as 0.) -/
structure TRMPrediction where
  recommended_tool : String := ""
  confidence : ℚ := 0
  ranked_tools : List (String × ℚ) := []
deriving DecidableEq, Repr

namespace TRMModel

/-- The static per-tool curated keyword table of `TRMModel::keyword_match`. -/
def tool_keywords : String → List String
  | "file_read" =>
    ["read", "file", "content", "show", "view", "cat", "look", "see",
     "check", "open", "text"]
  | "file_write" => ["write", "create", "save", "new", "file", "output", "generate"]
  | "file_edit" => ["edit", "modify", "change", "update", "fix", "replace", "refactor"]
  | "bash" =>
    ["run", "execute", "command", "shell", "terminal", "script", "install",
     "build", "compile", "test"]
  | "grep" =>
    ["search", "find", "grep", "look", "locate", "pattern", "match",
     "where", "code"]
  | "glob" => ["files", "list", "find", "pattern", "directory", "folder", "ls"]
  | "image_read" =>
    ["image", "picture", "photo", "screenshot", "png", "jpg", "jpeg", "gif",
     "see", "look", "show", "visual"]
  | "web_search" =>
    ["search", "web", "internet", "google", "online", "find", "lookup",
     "query", "information"]
  | "web_fetch" =>
    ["fetch", "url", "website", "page", "download", "http", "link",
     "browse", "visit"]
  | _ => []

/-- Descending insertion by score (the model's realization of the
`std::sort` by descending score; `std::sort` is unstable, so any descending
arrangement is a legal outcome — the theorems below only rely on order of
scores, which every such arrangement shares). -/
def insertDescBy (x : String × ℚ) : List (String × ℚ) → List (String × ℚ)
  | [] => [x]
  | y :: ys => if x.2 > y.2 then x :: y :: ys else y :: insertDescBy x ys

/-- Sort score pairs by descending score. -/
def sortDesc (l : List (String × ℚ)) : List (String × ℚ) :=
  l.foldr insertDescBy []

/-- `std::string::find` success: the needle occurs as a contiguous substring
of the haystack (an empty needle always occurs). -/
def listIsInfix (needle : List Char) : List Char → Bool
  | [] => needle.isEmpty
  | c :: rest => needle.isPrefixOf (c :: rest) || listIsInfix needle rest

/-- `TRMModel::keyword_match` (trm_model.cpp): +0.5 when the lower-cased
tool name occurs in the lower-cased query, plus 0.5 × (matched curated
keywords / keyword-set size); sorted descending. -/
def keyword_match (query : String) (tools : List String) : List (String × ℚ) :=
  let lower_query := toLowerStr query
  let query_words :=
    ((splitWords lower_query).map stripPunct).filter (fun w => w.length > 2)
  let scores := tools.map (fun tool =>
    let lower_tool := toLowerStr tool
    let base : ℚ :=
      if listIsInfix lower_tool.toList lower_query.toList then 1/2 else 0
    let kws := tool_keywords tool
    let nmatched := (kws.filter (fun k => query_words.contains k)).length
    let score := base +
      (if kws.isEmpty then 0 else ((nmatched : ℚ) / (kws.length : ℚ)) * (1/2))
    (tool, score))
  sortDesc scores

/-- `TRMModel::fallback_predict` (trm_model.cpp).  (`keyword_match` yields a
pair for every available tool, so the empty-ranking/non-empty-tools branch
of the C++ is unreachable; it is modelled faithfully regardless.) -/
def fallback_predict (task_context : String) (available_tools : List String) :
    TRMPrediction :=
  match keyword_match task_context available_tools with
  | (t, s) :: rest =>
    { recommended_tool := t, confidence := s * (1/2),
      ranked_tools := (t, s) :: rest }
  | [] =>
    match available_tools with
    | t0 :: _ =>
      { recommended_tool := t0, confidence := 1/10,
        ranked_tools := available_tools.map (fun t => (t, 1/10)) }
    | [] => {}

/-- The per-tool recency weight the history loop accumulates: the first
(most recent position in the list order) action contributes `n`, the next
`n−1`, and so on. -/
def historyScoreAux (recency : Nat) (tool : String) : List EpisodeAction → Nat
  | [] => 0
  | a :: rest =>
    (if a.tool == tool then recency else 0) + historyScoreAux (recency - 1) tool rest

/-- `history_scores[tool]` after the accumulation loop. -/
def historyScore (hist : List EpisodeAction) (tool : String) : Nat :=
  historyScoreAux hist.length tool hist

/-- The history boost applied to one ranked pair (factor 0.15 in the
ColdStart path, 0.2 in the Ready path), clamped to 1.0; pairs whose tool
never occurs in the history are left untouched. -/
def boostPair (hist : List EpisodeAction) (factor : ℚ) (p : String × ℚ) :
    String × ℚ :=
  if hist.any (fun a => a.tool == p.1) then
    (p.1, min 1 (p.2 + ((historyScore hist p.1 : ℚ) / (hist.length : ℚ)) * factor))
  else p

/-- `TRMModel::predict` (trm_model.cpp): ColdStart uses the fallback
prediction, boosting and re-sorting when a history is present and then
taking the top score as confidence; Ready ranks by `keyword_match` with a
0.2-factor boost; every other status returns no prediction. -/
def predict (status : TRMStatus) (task_context : String)
    (available_tools : List String) (history : List EpisodeAction) :
    Option TRMPrediction :=
  match status with
  | .ColdStart =>
    if history.isEmpty then
      some (fallback_predict task_context available_tools)
    else
      match sortDesc ((fallback_predict task_context available_tools).ranked_tools.map
          (boostPair history (3/20))) with
      | (t, s) :: rest =>
        some { recommended_tool := t, confidence := s,
               ranked_tools := (t, s) :: rest }
      | [] =>
        some { fallback_predict task_context available_tools with
               ranked_tools := [] }
  | .Ready =>
    match (if history.isEmpty then keyword_match task_context available_tools
           else sortDesc ((keyword_match task_context available_tools).map
             (boostPair history (1/5)))) with
    | (t, s) :: rest =>
      some { recommended_tool := t, confidence := s,
             ranked_tools := (t, s) :: rest }
    | [] => some {}
  | _ => none

end TRMModel

namespace TRMModel

/-- Inserting into a sorted list adds one element. -/
theorem insertDescBy_length (x : String × ℚ) (l : List (String × ℚ)) :
    (insertDescBy x l).length = l.length + 1 := by
  induction l with
  | nil => rfl
  | cons y ys ih =>
    unfold insertDescBy
    split
    · rfl
    · simp [ih]

/-- Sorting preserves length. -/
theorem sortDesc_length (l : List (String × ℚ)) :
    (sortDesc l).length = l.length := by
  induction l with
  | nil => rfl
  | cons x xs ih =>
    show (insertDescBy x (List.foldr insertDescBy [] xs)).length = xs.length + 1
    rw [insertDescBy_length]
    exact congrArg (· + 1) ih

/-- `keyword_match` scores every available tool. -/
theorem keyword_match_length (t : String) (tools : List String) :
    (keyword_match t tools).length = tools.length := by
  unfold keyword_match
  rw [sortDesc_length, List.length_map]

/-- The fallback prediction's ranking is exactly the keyword ranking (the
"no keyword match" branch of the C++ is reachable only with an empty tool
list, where both sides are empty). -/
theorem fallback_ranked_eq (t : String) (tools : List String) :
    (fallback_predict t tools).ranked_tools = keyword_match t tools := by
  unfold fallback_predict
  cases hk : keyword_match t tools with
  | cons pr rest =>
    obtain ⟨a, b⟩ := pr
    rfl
  | nil =>
    cases tools with
    | nil => rfl
    | cons t0 ts =>
      exfalso
      have hlen := keyword_match_length t (t0 :: ts)
      rw [hk] at hlen
      simp at hlen

end TRMModel

/-- Single recent action for the C3 statements. -/
def histC3 : List EpisodeAction := [{ tool := "file_read" }]

/-- C3 (amended): `predict` returns a prediction only in `ColdStart` (and
`Ready`) status — in `NotInitialized`, `Training` and `Fallback` it returns
none.  In ColdStart: with empty `recent_actions` it returns the fallback
prediction, whose confidence is the top heuristic score × 0.5; with
non-empty `recent_actions` every score is first boosted by
0.15 × (tool history weight / action count) clamped to 1.0, the ranking is
re-sorted, and the confidence equals the boosted top score itself — the
0.5 factor is NOT applied in that case. -/
theorem predict_coldstart_characterization :
    (∀ t tools h, TRMModel.predict .NotInitialized t tools h = none) ∧
    (∀ t tools h, TRMModel.predict .Training t tools h = none) ∧
    (∀ t tools h, TRMModel.predict .Fallback t tools h = none) ∧
    (∀ t tools, TRMModel.predict .ColdStart t tools [] =
      some (TRMModel.fallback_predict t tools)) ∧
    (∀ t tools pr rest, TRMModel.keyword_match t tools = pr :: rest →
      (TRMModel.fallback_predict t tools).confidence = pr.2 * (1/2)) ∧
    (∀ t tools hist, hist ≠ [] →
      ∃ p, TRMModel.predict .ColdStart t tools hist = some p ∧
        p.ranked_tools =
          TRMModel.sortDesc ((TRMModel.keyword_match t tools).map
            (TRMModel.boostPair hist (3/20))) ∧
        (∀ pr rest, p.ranked_tools = pr :: rest → p.confidence = pr.2)) := by
  refine ⟨fun t tools h => rfl, fun t tools h => rfl, fun t tools h => rfl,
    fun t tools => rfl, ?_, ?_⟩
  · intro t tools pr rest h
    obtain ⟨a, b⟩ := pr
    unfold TRMModel.fallback_predict
    rw [h]
  · intro t tools hist hne
    unfold TRMModel.predict
    rw [if_neg (by simp [hne]), TRMModel.fallback_ranked_eq]
    cases hr : TRMModel.sortDesc ((TRMModel.keyword_match t tools).map
        (TRMModel.boostPair hist (3/20))) with
    | cons pr0 rest0 =>
      obtain ⟨t0, s0⟩ := pr0
      refine ⟨_, rfl, rfl, ?_⟩
      intro pr rest hpr
      injection hpr with h1 h2
      rw [← h1]
    | nil =>
      refine ⟨_, rfl, rfl, ?_⟩
      intro pr rest hpr
      cases hpr

/-- C3 (counterexample): at the concrete inputs, `predict` in `Fallback`
status returns no prediction at all (the claim requires one), and in
`ColdStart` with one recent `file_read` action the confidence is the boosted
top score 53/220 — neither the raw top heuristic score halved (1/22) nor the
boosted top score halved (53/440). -/
theorem predict_claimC3_fails :
    TRMModel.predict .Fallback "read the file" ["file_read"] histC3 = none ∧
    (TRMModel.predict .ColdStart "read the file" ["file_read"] histC3).map
        TRMPrediction.confidence = some (53/220) ∧
    (53 : ℚ)/220 ≠ (1/11) * (1/2) ∧
    (53 : ℚ)/220 ≠ ((53 : ℚ)/220) * (1/2) := by
  refine ⟨rfl, ?_, by norm_num, by norm_num⟩
  have hpred : (TRMModel.predict .ColdStart "read the file" ["file_read"]
      histC3).map TRMPrediction.confidence =
      some (min 1 ((0 + (((2:ℕ) : ℚ) / ((11:ℕ) : ℚ)) * (1/2)) +
        (((1:ℕ) : ℚ) / ((1:ℕ) : ℚ)) * (3/20))) := rfl
  rw [hpred]
  norm_num

/-- C3 (witness): the amended characterization applied at the concrete
inputs of the counterexample. -/
theorem predict_coldstart_characterization_witness :
    TRMModel.predict .Fallback "read the file" ["file_read"] histC3 = none ∧
    TRMModel.predict .ColdStart "read the file" ["file_read"] [] =
      some (TRMModel.fallback_predict "read the file" ["file_read"]) ∧
    (∃ p, TRMModel.predict .ColdStart "read the file" ["file_read"] histC3 =
        some p ∧
      p.ranked_tools =
        TRMModel.sortDesc ((TRMModel.keyword_match "read the file"
          ["file_read"]).map (TRMModel.boostPair histC3 (3/20))) ∧
      (∀ pr rest, p.ranked_tools = pr :: rest → p.confidence = pr.2)) :=
  ⟨predict_coldstart_characterization.2.2.1 "read the file" ["file_read"] histC3,
   predict_coldstart_characterization.2.2.2.1 "read the file" ["file_read"],
   predict_coldstart_characterization.2.2.2.2.2 "read the file" ["file_read"]
     histC3 (by simp [histC3])⟩

/-! ## TRM save / load (trm/trm_model.cpp) — claim C9 -/

/-- File-system model for TRM persistence: existing files as an association
list path → content (later entries shadowed by newer writes at the front).
Directory creation and stream opening succeed; their failure branches depend
on operating-system state outside the program. -/
def FileSystem : Type := List (String × String)

namespace TRMModel

/-- `TRMModel::save` (trm_model.cpp): refuses unless the status is Ready or
Training; otherwise creates the parent directory if absent and writes the
versioned header "GPAGENT_TRM_V1" to the path. -/
def save (status : TRMStatus) (fs : FileSystem) (path : String) :
    Result Unit Error × FileSystem :=
  if status ≠ .Ready ∧ status ≠ .Training then
    (.err { code := .InvalidState,
            message := "Cannot save model that is not initialized" }, fs)
  else
    (.ok (), (path, "GPAGENT_TRM_V1") :: fs)

/-- `TRMModel::load` (trm_model.cpp): missing file → FileNotFound; present
file → the model is marked Ready. -/
def load (status : TRMStatus) (fs : FileSystem) (path : String) :
    Result Unit Error × TRMStatus :=
  match fs.lookup path with
  | none =>
    (.err { code := .FileNotFound,
            message := "Model file not found: " ++ path }, status)
  | some _ => (.ok (), .Ready)

/-- C9 (amended): `save` fails — with InvalidState — exactly when the status
is neither Ready nor Training: not only in NotInitialized, but also in the
constructor's initial ColdStart status and in Fallback.  In Ready or
Training it succeeds, writes the versioned header, and a subsequent `load`
of the just-written path succeeds and marks the model Ready. -/
theorem save_load_contract (status : TRMStatus) (fs : FileSystem) (path : String) :
    ((save status fs path).1.is_err = true ↔
      (status ≠ .Ready ∧ status ≠ .Training))
    ∧ (∀ e, (save status fs path).1 = .err e → e.code = .InvalidState)
    ∧ (status = .Ready ∨ status = .Training →
        (save status fs path).1 = .ok () ∧
        (save status fs path).2.lookup path = some "GPAGENT_TRM_V1" ∧
        load status (save status fs path).2 path = (.ok (), .Ready)) := by
  by_cases h : status ≠ .Ready ∧ status ≠ .Training
  · refine ⟨?_, ?_, ?_⟩
    · unfold save
      rw [if_pos h]
      simp only [Result.is_err, true_iff]
      exact h
    · intro e he
      unfold save at he
      rw [if_pos h] at he
      injection he with he
      rw [← he]
    · rintro (rfl | rfl)
      · exact absurd rfl h.1
      · exact absurd rfl h.2
  · refine ⟨?_, ?_, ?_⟩
    · unfold save
      rw [if_neg h]
      simp only [Result.is_err]
      exact ⟨fun hfalse => absurd hfalse (by simp), fun hc => absurd hc h⟩
    · intro e he
      unfold save at he
      rw [if_neg h] at he
      cases he
    · intro hstat
      unfold save
      rw [if_neg h]
      refine ⟨rfl, ?_, ?_⟩
      · simp [List.lookup]
      · unfold load
        simp [List.lookup]

end TRMModel

/-- C9 (counterexample): in `ColdStart` — the status every freshly
constructed `TRMModel` holds — `save` fails with InvalidState, refuting
"fails exactly when the status is NotInitialized; in every other status it
succeeds". -/
theorem save_fails_in_coldstart :
    (TRMModel.save .ColdStart [] "trm/model.bin").1 =
      .err { code := .InvalidState,
             message := "Cannot save model that is not initialized" } := rfl

/-- C9 (witness): the save/load contract applied in Ready status on the
empty file system. -/
theorem save_load_contract_witness :
    (TRMModel.save .Ready [] "trm/model.bin").1 = .ok () ∧
    TRMModel.load .Ready (TRMModel.save .Ready [] "trm/model.bin").2
      "trm/model.bin" = (.ok (), .Ready) :=
  ⟨((TRMModel.save_load_contract .Ready [] "trm/model.bin").2.2
      (Or.inl rfl)).1,
   ((TRMModel.save_load_contract .Ready [] "trm/model.bin").2.2
      (Or.inl rfl)).2.2⟩

/-! ## Episodic memory keyword index (memory/episodic_memory.cpp) — claim C10 -/

/-- ASCII `isalnum` (C locale). -/
def isAsciiAlnum (c : Char) : Bool :=
  let n := c.toNat
  (48 ≤ n && n ≤ 57) || (65 ≤ n && n ≤ 90) || (97 ≤ n && n ≤ 122)

/-- Remove every non-alphanumeric character from a word. -/
def keepAlnum (s : String) : String :=
  String.mk (s.toList.filter isAsciiAlnum)

/-- The stop-word set of `EpisodicMemory::extract_keywords`. -/
def stop_words : List String :=
  ["the", "a", "an", "is", "are", "was", "were", "be", "been",
   "to", "of", "in", "for", "on", "with", "at", "by", "from",
   "it", "this", "that", "these", "those", "i", "you", "we",
   "and", "or", "but", "if", "then", "else", "when", "while"]

/-- The word loop of `extract_keywords`: lower-case, strip non-alphanumeric
characters, skip short words, stop words and duplicates. -/
def extractKeywordsAux : List String → List String → List String
  | [], _ => []
  | w :: ws, seen =>
    let w1 := keepAlnum (toLowerStr w)
    if w1.length < 3 || stop_words.contains w1 || seen.contains w1 then
      extractKeywordsAux ws seen
    else w1 :: extractKeywordsAux ws (w1 :: seen)

/-- `EpisodicMemory::extract_keywords` (episodic_memory.cpp). -/
def extract_keywords (text : String) : List String :=
  extractKeywordsAux (splitWords text) []

/-- `gpagent::memory::EpisodeIndexEntry`. -/
structure EpisodeIndexEntry where
  id : String
  keywords : List String := []
  category : String := ""
  success : Bool := false
  timestamp : Int := 0
  turns : Int := 0
deriving DecidableEq, Repr

namespace EpisodicMemory

/-- The index entry `EpisodicMemory::update_index` builds for an episode:
when the episode carries no keywords of its own, they are extracted from the
task description. -/
def indexEntryOf (episode : Episode) : EpisodeIndexEntry :=
  { id := episode.id
    keywords := if episode.keywords.isEmpty then
        extract_keywords episode.task_description
      else episode.keywords
    category := episode.task_category
    success := episode.outcome.success
    timestamp := episode.timestamp
    turns := episode.outcome.turns_taken }

/-- `EpisodicMemory::update_index` (episodic_memory.cpp): erase every
existing entry with the episode's id, then append the fresh entry. -/
def update_index (index : List EpisodeIndexEntry) (episode : Episode) :
    List EpisodeIndexEntry :=
  (index.filter (fun entry => !(entry.id == episode.id))) ++ [indexEntryOf episode]

/-- The index effect of a successful `EpisodicMemory::store` (the episode
file write and `save_index` persist state without touching the in-memory
index further). -/
def store (index : List EpisodeIndexEntry) (episode : Episode) :
    List EpisodeIndexEntry :=
  update_index index episode

/-- The in-memory index after storing a sequence of episodes, starting from
the empty index. -/
def storeAll (episodes : List Episode) : List EpisodeIndexEntry :=
  episodes.foldl store []

end EpisodicMemory

namespace EpisodicMemory

/-- The ids in the index after one store: the old ids without the stored
episode's id, then that id appended. -/
theorem store_ids_step (index : List EpisodeIndexEntry) (episode : Episode) :
    (store index episode).map EpisodeIndexEntry.id =
      ((index.map EpisodeIndexEntry.id).filter
        (fun x => !(x == episode.id))) ++ [episode.id] := by
  unfold store update_index
  rw [List.map_append]
  congr 1
  induction index with
  | nil => rfl
  | cons e es ih =>
    by_cases h : (e.id == episode.id) = true
    · simp [List.filter_cons, h, ih]
    · simp [List.filter_cons, h, ih]

/-- Ids of the index stay duplicate-free across stores, and as a set they
accumulate exactly the stored episodes' ids. -/
theorem storeAll_nodup_toFinset :
    ∀ (episodes : List Episode) (index : List EpisodeIndexEntry),
      (index.map EpisodeIndexEntry.id).Nodup →
      ((episodes.foldl store index).map EpisodeIndexEntry.id).Nodup ∧
      ((episodes.foldl store index).map EpisodeIndexEntry.id).toFinset =
        (index.map EpisodeIndexEntry.id).toFinset ∪
          (episodes.map Episode.id).toFinset := by
  intro episodes
  induction episodes with
  | nil =>
    intro index h
    exact ⟨h, by simp⟩
  | cons e es ih =>
    intro index h
    have hstep := store_ids_step index e
    have hnodup : ((store index e).map EpisodeIndexEntry.id).Nodup := by
      rw [hstep]
      rw [List.nodup_append]
      refine ⟨h.filter _, List.nodup_singleton _, ?_⟩
      intro a ha hb
      rcases List.mem_filter.mp ha with ⟨-, hne⟩
      rcases List.mem_singleton.mp hb with rfl
      simp at hne
    have hfin : ((store index e).map EpisodeIndexEntry.id).toFinset =
        insert e.id (index.map EpisodeIndexEntry.id).toFinset := by
      rw [hstep]
      ext a
      simp only [List.mem_toFinset, List.mem_append, List.mem_filter,
        List.mem_singleton, Finset.mem_insert]
      constructor
      · rintro (⟨ha, -⟩ | rfl)
        · exact Or.inr ha
        · exact Or.inl rfl
      · rintro (rfl | ha)
        · exact Or.inr rfl
        · by_cases heq : a = e.id
          · exact Or.inr heq
          · exact Or.inl ⟨ha, by simp [heq]⟩
    rcases ih (store index e) hnodup with ⟨hn2, hf2⟩
    rw [List.foldl_cons]
    refine ⟨hn2, ?_⟩
    rw [hf2, hfin]
    ext a
    simp only [Finset.mem_union, Finset.mem_insert, List.mem_toFinset,
      List.map_cons, List.toFinset_cons]
    tauto

end EpisodicMemory

/-- C10: after a (successful) store the in-memory index holds exactly one
entry with the stored episode's id — re-storing an indexed id replaces the
entry instead of duplicating it — `count()` equals the number of distinct
episode ids stored, and the fresh entry's keywords fall back to keywords
extracted from the task description when the episode's own keyword list is
empty. -/
theorem store_index_invariants :
    (∀ (index : List EpisodeIndexEntry) (episode : Episode),
      (EpisodicMemory.store index episode).filter
          (fun entry => entry.id == episode.id) =
        [EpisodicMemory.indexEntryOf episode])
    ∧ (∀ episodes : List Episode,
        (EpisodicMemory.storeAll episodes).length =
          (episodes.map Episode.id).toFinset.card)
    ∧ (∀ episode : Episode, (EpisodicMemory.indexEntryOf episode).keywords =
        (if episode.keywords.isEmpty then
           extract_keywords episode.task_description
         else episode.keywords)) := by
  refine ⟨?_, ?_, fun episode => rfl⟩
  · intro index episode
    unfold EpisodicMemory.store EpisodicMemory.update_index
    rw [List.filter_append]
    have h1 : (index.filter (fun e => !(e.id == episode.id))).filter
        (fun entry => entry.id == episode.id) = [] := by
      induction index with
      | nil => rfl
      | cons x xs ih =>
        rw [List.filter_cons]
        by_cases hx : (x.id == episode.id) = true
        · simp only [hx, Bool.not_true]
          simp only [Bool.false_eq_true, if_false]
          exact ih
        · simp only [List.filter_cons, hx, Bool.not_false, if_true,
            Bool.false_eq_true, if_false]
          exact ih
    rw [h1]
    have h2 : ((EpisodicMemory.indexEntryOf episode).id == episode.id) = true :=
      beq_self_eq_true episode.id
    rw [List.nil_append, List.filter_cons, if_pos h2]
    rfl
  · intro episodes
    have hmain := EpisodicMemory.storeAll_nodup_toFinset episodes [] (by simp)
    unfold EpisodicMemory.storeAll
    rw [show (List.foldl EpisodicMemory.store [] episodes).length =
        ((List.foldl EpisodicMemory.store [] episodes).map
          EpisodeIndexEntry.id).length from (List.length_map ..).symm,
      ← List.toFinset_card_of_nodup hmain.1, hmain.2]
    simp

/-! ## Compressed history and compaction
(memory/thread_memory.cpp, context/context_manager.cpp) — claim C8 -/

/-- `CompressedHistory::Summary` (thread_memory.hpp). -/
structure Summary where
  start_turn : Nat
  end_turn : Nat
  content : String := ""
  created_at : Int := 0
deriving DecidableEq, Repr

/-- `CompressedHistory::add_summary` (thread_memory.cpp): an unconditional
append — no overlap or monotonicity check is performed. -/
def add_summary (summaries : List Summary) (start_turn end_turn : Nat)
    (content : String) (now : Int) : List Summary :=
  summaries ++ [{ start_turn := start_turn, end_turn := end_turn,
                  content := content, created_at := now }]

/-- The state `ContextManager::compact_if_needed` works on: the session
thread and the compressed-history summary list. -/
structure CMState where
  thread : List Message
  history : List Summary

namespace ContextManager

/-- `ThreadMemory::get_range(start, end)`: the messages in `[start, end)`,
clamped to the thread. -/
def get_range (messages : List Message) (start stop : Nat) : List Message :=
  (messages.drop start).take (stop - start)

/-- `ThreadMemory::trim(keep_last)`: drop the oldest messages, keeping the
last `keep_last`. -/
def trim (messages : List Message) (keep_last : Nat) : List Message :=
  if messages.length > keep_last then
    messages.drop (messages.length - keep_last)
  else messages

/-- The batch loop of `compact_if_needed`, with an explicit fuel argument
`ce − cs`: the C++ loop advances `compact_start` to each batch end, by at
least one position per iteration whenever `summarize_batch ≥ 1`, so the fuel
always suffices (with `summarize_batch = 0` the C++ loop would not
terminate; the model then stops with the history accumulated so far).  A
batch whose summarization fails is skipped. -/
def compactBatchesAux (summarize : List Message → Result String Error)
    (thread : List Message) (batch_size : Nat) (now : Int) :
    Nat → Nat → Nat → List Summary → List Summary
  | 0, _, _, hist => hist
  | fuel + 1, cs, ce, hist =>
    if cs < ce then
      compactBatchesAux summarize thread batch_size now fuel
        (min (cs + batch_size) ce) ce
        (match summarize (get_range thread cs (min (cs + batch_size) ce)) with
         | .ok s => add_summary hist cs (min (cs + batch_size) ce) s now
         | .err _ => hist)
    else hist

/-- The whole batch phase over `[cs, ce)`. -/
def compactBatches (summarize : List Message → Result String Error)
    (thread : List Message) (batch_size : Nat) (now : Int)
    (cs ce : Nat) (hist : List Summary) : List Summary :=
  compactBatchesAux summarize thread batch_size now (ce - cs) cs ce hist

/-- `ContextManager::compact_if_needed` (context_manager.cpp).  The
summarizer round trip through the LLM gateway is the oracle `summarize`;
`Clock::now()` is the explicit `now`. -/
def compact_if_needed (cfg : ContextConfig)
    (summarize : List Message → Result String Error) (now : Int)
    (st : CMState) : CMState :=
  if ¬ (st.thread.foldl (fun acc m => acc + 2 * m.content.length / 7) 0 >
        cfg.compaction_threshold) then st
  else if st.thread.length ≤ cfg.keep_raw_turns * 2 then st
  else
    { thread := trim st.thread (cfg.keep_raw_turns * 2)
      history := compactBatches summarize st.thread cfg.summarize_batch now
        0 (st.thread.length - cfg.keep_raw_turns * 2) st.history }

end ContextManager

namespace ContextManager

/-- The batch loop only appends: its result is the incoming history followed
by the block it would produce from an empty accumulator. -/
theorem compactBatchesAux_append (summarize : List Message → Result String Error)
    (thread : List Message) (bs : Nat) (now : Int) :
    ∀ (fuel cs ce : Nat) (hist : List Summary),
      compactBatchesAux summarize thread bs now fuel cs ce hist =
        hist ++ compactBatchesAux summarize thread bs now fuel cs ce [] := by
  intro fuel
  induction fuel with
  | zero =>
    intro cs ce hist
    simp [compactBatchesAux]
  | succ n ih =>
    intro cs ce hist
    unfold compactBatchesAux
    by_cases h : cs < ce
    · rw [if_pos h, if_pos h]
      cases hs : summarize (get_range thread cs (min (cs + bs) ce)) with
      | ok s =>
        simp only [add_summary, List.nil_append]
        rw [ih, ih _ _ ([_])]
        rw [List.append_assoc]
      | err e =>
        rw [ih]
    · rw [if_neg h, if_neg h]
      simp

/-- Spans produced by the batch loop from an empty accumulator: each lies in
`[cs, ce)` and is non-degenerate, and consecutive spans do not overlap. -/
theorem compactBatchesAux_spans (summarize : List Message → Result String Error)
    (thread : List Message) (bs : Nat) (now : Int) (hbs : 0 < bs) :
    ∀ (fuel cs ce : Nat),
      (∀ s ∈ compactBatchesAux summarize thread bs now fuel cs ce [],
        cs ≤ s.start_turn ∧ s.start_turn < s.end_turn ∧ s.end_turn ≤ ce)
      ∧ (compactBatchesAux summarize thread bs now fuel cs ce []).Pairwise
          (fun a b => a.end_turn ≤ b.start_turn) := by
  intro fuel
  induction fuel with
  | zero =>
    intro cs ce
    constructor <;> simp [compactBatchesAux]
  | succ n ih =>
    intro cs ce
    unfold compactBatchesAux
    by_cases h : cs < ce
    · rw [if_pos h]
      have hbe1 : cs < min (cs + bs) ce := lt_min (by omega) h
      have hbe2 : min (cs + bs) ce ≤ ce := min_le_right _ _
      rcases ih (min (cs + bs) ce) ce with ⟨ihB, ihP⟩
      cases hs : summarize (get_range thread cs (min (cs + bs) ce)) with
      | ok s =>
        simp only [add_summary, List.nil_append]
        rw [compactBatchesAux_append]
        constructor
        · intro x hx
          rcases List.mem_append.mp hx with hx1 | hx2
          · rcases List.mem_singleton.mp hx1 with rfl
            exact ⟨le_refl cs, hbe1, hbe2⟩
          · rcases ihB x hx2 with ⟨hb1, hb2, hb3⟩
            exact ⟨le_trans (le_of_lt hbe1) hb1, hb2, hb3⟩
        · rw [List.singleton_append, List.pairwise_cons]
          refine ⟨?_, ihP⟩
          intro b hb
          exact (ihB b hb).1
      | err e =>
        constructor
        · intro x hx
          rcases ihB x hx with ⟨hb1, hb2, hb3⟩
          exact ⟨le_trans (le_of_lt hbe1) hb1, hb2, hb3⟩
        · exact ihP
    · rw [if_neg h]
      constructor <;> simp

end ContextManager

/-- C8 (amended): one invocation of `compact_if_needed` appends to the
stored history a block of summaries whose spans are pairwise non-overlapping
and strictly increasing in `end_turn` (and non-degenerate).  The spans are
message indices into the thread as it stands at that invocation; the thread
is trimmed afterwards, so spans appended by later invocations restart at 0
and the concatenated history as a whole need not satisfy the invariant. -/
theorem compact_if_needed_spans (cfg : ContextConfig)
    (summarize : List Message → Result String Error) (now : Int) (st : CMState)
    (hbs : 0 < cfg.summarize_batch) :
    ∃ l, (ContextManager.compact_if_needed cfg summarize now st).history =
        st.history ++ l
      ∧ l.Pairwise (fun a b => a.end_turn ≤ b.start_turn)
      ∧ l.Pairwise (fun a b => a.end_turn < b.end_turn)
      ∧ (∀ s ∈ l, s.start_turn < s.end_turn) := by
  unfold ContextManager.compact_if_needed
  by_cases h1 : ¬ (st.thread.foldl (fun acc m => acc + 2 * m.content.length / 7) 0 >
      cfg.compaction_threshold)
  · rw [if_pos h1]
    exact ⟨[], by simp, by simp, by simp, by simp⟩
  · rw [if_neg h1]
    by_cases h2 : st.thread.length ≤ cfg.keep_raw_turns * 2
    · rw [if_pos h2]
      exact ⟨[], by simp, by simp, by simp, by simp⟩
    · rw [if_neg h2]
      rcases ContextManager.compactBatchesAux_spans summarize st.thread
          cfg.summarize_batch now hbs
          (st.thread.length - cfg.keep_raw_turns * 2 - 0) 0
          (st.thread.length - cfg.keep_raw_turns * 2) with ⟨hB, hP⟩
      refine ⟨_, ?_, hP, ?_, ?_⟩
      · show ContextManager.compactBatches summarize st.thread
          cfg.summarize_batch now 0
          (st.thread.length - cfg.keep_raw_turns * 2) st.history =
          st.history ++ _
        unfold ContextManager.compactBatches
        rw [ContextManager.compactBatchesAux_append]
      · refine List.Pairwise.imp_of_mem ?_ hP
        intro a b ha hb hab
        exact lt_of_le_of_lt hab (hB b hb).2.1
      · intro x hx
        exact (hB x hx).2.1

/-- Summarizer oracle for the C8 counterexample: always succeeds. -/
def summOkC8 : List Message → Result String Error := fun _ => .ok "s"

/-- A 7-character message: it estimates to 2 tokens. -/
def msgC8 : Message := { role := .User, content := "aaaaaaa" }

/-- Counterexample configuration: compaction threshold 1, keep one raw turn
pair, default batch size. -/
def cfgC8 : ContextConfig := { compaction_threshold := 1, keep_raw_turns := 1 }

/-- State after the first compaction of a 4-message thread. -/
def st1C8 : CMState :=
  ContextManager.compact_if_needed cfgC8 summOkC8 0
    { thread := [msgC8, msgC8, msgC8, msgC8], history := [] }

/-- State after two more messages arrive and a second compaction runs. -/
def st2C8 : CMState :=
  ContextManager.compact_if_needed cfgC8 summOkC8 0
    { thread := st1C8.thread ++ [msgC8, msgC8], history := st1C8.history }

/-- C8 (counterexample): after two invocations of `compact_if_needed` the
stored spans are [0,2) and [0,2) — the indices restart at 0 after the trim —
so the summaries are neither non-overlapping nor monotonically increasing in
`end_turn`. -/
theorem compaction_spans_overlap_across_invocations :
    st2C8.history.map (fun s => (s.start_turn, s.end_turn)) = [(0, 2), (0, 2)] ∧
    ¬ st2C8.history.Pairwise (fun a b => a.end_turn ≤ b.start_turn) ∧
    ¬ st2C8.history.Pairwise (fun a b => a.end_turn < b.end_turn) := by
  have hh : st2C8.history =
      [{ start_turn := 0, end_turn := 2, content := "s", created_at := 0 },
       { start_turn := 0, end_turn := 2, content := "s", created_at := 0 }] := rfl
  refine ⟨rfl, ?_, ?_⟩
  · rw [hh]
    intro h
    rcases List.pairwise_cons.mp h with ⟨hcond, -⟩
    have h0 := hcond _ (List.mem_singleton.mpr rfl)
    exact absurd h0 (by decide)
  · rw [hh]
    intro h
    rcases List.pairwise_cons.mp h with ⟨hcond, -⟩
    have h0 := hcond _ (List.mem_singleton.mpr rfl)
    exact absurd h0 (by decide)

/-- C8 (witness): the single-invocation span guarantee applied to the
concrete first compaction (batch size 21 > 0). -/
theorem compact_if_needed_spans_witness :
    ∃ l, (ContextManager.compact_if_needed cfgC8 summOkC8 0
        { thread := [msgC8, msgC8, msgC8, msgC8], history := [] }).history =
        ([] : List Summary) ++ l
      ∧ l.Pairwise (fun a b => a.end_turn ≤ b.start_turn)
      ∧ l.Pairwise (fun a b => a.end_turn < b.end_turn)
      ∧ (∀ s ∈ l, s.start_turn < s.end_turn) :=
  compact_if_needed_spans cfgC8 summOkC8 0
    { thread := [msgC8, msgC8, msgC8, msgC8], history := [] } (by decide)

end gpagent
